import Mathlib

/-!
# Verification of the D3D12 shader resource layout / binding subsystem

A shallow embedding of `ShaderResourceLayoutD3D12.cpp` (DiligentCore):
the resource cache, resolved bindings, `BindResource`, `BindResources`,
`IsBound`, the static/default-mode layout construction, the clone
constructor and `CopyStaticResourceDesriptorHandles`, together with
theorems settling the specification's testable properties.
-/

namespace Diligent

/-! ## Data model and operations (embedded from the source) -/


/-- Embeds `CachedResourceType` from the source: the category recorded for a cached
resource.  `Unknown` is the value held by an empty (default-constructed)
cache entry. -/
inductive CachedResourceType where
  | CBV
  | TexSRV
  | BufSRV
  | TexUAV
  | BufUAV
  | Sampler
  | Unknown
deriving DecidableEq

/-- Embeds `D3D12_DESCRIPTOR_RANGE_TYPE` values (SRV = 0, UAV = 1, CBV = 2,
SAMPLER = 3) as assigned by `GetDescriptorRangeType`. -/
def descriptorRangeType : CachedResourceType → Nat
  | .CBV => 2
  | .TexSRV => 0
  | .BufSRV => 0
  | .TexUAV => 1
  | .BufUAV => 1
  | .Sampler => 3
  | .Unknown => 0

/-- Embeds `SHADER_VARIABLE_TYPE`: the three mutability classes. -/
inductive ShaderVariableType where
  | Static
  | Mutable
  | Dynamic
deriving DecidableEq

/-- Embeds `TEXTURE_VIEW_TYPE` (the members relevant to binding). -/
inductive TextureViewType where
  | ShaderResource
  | UnorderedAccess
  | RenderTarget
  | DepthStencil
deriving DecidableEq

/-- Embeds `BUFFER_VIEW_TYPE`. -/
inductive BufferViewType where
  | ShaderResource
  | UnorderedAccess
deriving DecidableEq

/-- A device object as it can be returned from a resource mapping and stored
in the cache.  `buffer` records whether the buffer was created with the
`BIND_UNIFORM_BUFFER` flag; `texView` records the view type and the sampler
set in the view (`GetSampler`, by id); `bufView` records the view type.
Object identity (C++ pointer comparison) is modelled by the `id` field. -/
inductive DeviceObject where
  | buffer (id : Nat) (bindUniformBuffer : Bool)
  | texView (id : Nat) (viewType : TextureViewType) (sampId : Option Nat)
  | bufView (id : Nat) (viewType : BufferViewType)
  | samplerObj (id : Nat)
deriving DecidableEq

/-- The CPU descriptor handle exposed by a device object
(`GetCBVHandle` / `GetCPUDescriptorHandle`); modelled as a nonzero number
derived from the object's identity. -/
def cpuHandleOf : DeviceObject → Nat
  | .buffer id _ => id + 1
  | .texView id _ _ => id + 1
  | .bufView id _ => id + 1
  | .samplerObj id => id + 1

/-- The sampler stored in a texture view, as returned by `GetSampler`. -/
def viewSampler : DeviceObject → Option DeviceObject
  | .texView _ _ (some sid) => some (.samplerObj sid)
  | _ => none

/-- Embeds `ShaderResourceCacheD3D12::Resource`: one cache entry.  A
default-constructed entry has type `Unknown`, null object and null
descriptor handle. -/
structure CachedResource where
  resType : CachedResourceType := .Unknown
  pObject : Option DeviceObject := none
  cpuHandle : Nat := 0
deriving DecidableEq

instance : Inhabited CachedResource := ⟨{}⟩

/-- Embeds `ShaderResourceCacheD3D12`: a sequence of root tables, each a sequence
of cache entries. -/
structure ResourceCache where
  tables : List (List CachedResource)
deriving DecidableEq

/-- Embeds `GetNumRootTables`. -/
def numRootTables (c : ResourceCache) : Nat := c.tables.length

/-- Size of root table `root` (`RootTable::GetSize`); 0 for an absent table. -/
def tableLen (c : ResourceCache) (root : Nat) : Nat :=
  (c.tables.getD root []).length

/-- Embeds `GetRootTable(root).GetResource(off)`: read a cache entry.  Out-of-range
reads yield the default (empty) entry. -/
def getRes (c : ResourceCache) (root off : Nat) : CachedResource :=
  (c.tables.getD root []).getD off default

/-- Write a cache entry at `(root, off)`, a no-op if out of range (in the
source an out-of-range access is a fatal programming error; all writes
performed by the embedded operations are in range whenever the cache was
sized by layout construction). -/
def setRes (c : ResourceCache) (root off : Nat) (r : CachedResource) : ResourceCache :=
  ⟨c.tables.set root ((c.tables.getD root []).set off r)⟩

/-- Embeds `D3DShaderResourceAttribs`: the immutable reflected metadata of one
declared shader resource.  `samplerId` is the id of the statically
associated sampler of a texture SRV (`IsValidSampler`/`GetSamplerId`);
`staticSamplerFlag` is `IsStaticSampler` for sampler attributes. -/
structure D3DShaderResourceAttribs where
  name : String
  bindPoint : Nat
  bindCount : Nat
  varType : ShaderVariableType
  samplerId : Option Nat := none
  staticSamplerFlag : Bool := false
deriving DecidableEq

instance : Inhabited D3DShaderResourceAttribs :=
  ⟨{ name := "", bindPoint := 0, bindCount := 0, varType := .Static }⟩

/-- Embeds `ShaderResourceLayoutD3D12::SRV_CBV_UAV`: a resolved non-sampler
binding.  `samplerId = none` models `InvalidSamplerId`. -/
structure SrvCbvUav where
  attribs : D3DShaderResourceAttribs
  resType : CachedResourceType
  rootIndex : Nat
  offsetFromTableStart : Nat
  samplerId : Option Nat
deriving DecidableEq

instance : Inhabited SrvCbvUav :=
  ⟨{ attribs := default, resType := .Unknown, rootIndex := 0,
     offsetFromTableStart := 0, samplerId := none }⟩

/-- Embeds `ShaderResourceLayoutD3D12::Sampler`: a resolved sampler binding. -/
structure SamplerRes where
  attribs : D3DShaderResourceAttribs
  rootIndex : Nat
  offsetFromTableStart : Nat
deriving DecidableEq

instance : Inhabited SamplerRes :=
  ⟨{ attribs := default, rootIndex := 0, offsetFromTableStart := 0 }⟩

/-- Embeds `ShaderResourceLayoutD3D12`: resolved bindings partitioned by mutability
class, in attribute-set iteration order within each class. -/
structure Layout where
  resStatic : List SrvCbvUav
  resMut : List SrvCbvUav
  resDyn : List SrvCbvUav
  samStatic : List SamplerRes
  samMut : List SamplerRes
  samDyn : List SamplerRes
deriving DecidableEq

/-- Embeds `GetSrvCbvUav(VarType, r)` source array. -/
def Layout.resOf (L : Layout) : ShaderVariableType → List SrvCbvUav
  | .Static => L.resStatic
  | .Mutable => L.resMut
  | .Dynamic => L.resDyn

/-- Embeds `GetSampler(VarType, s)` source array. -/
def Layout.samOf (L : Layout) : ShaderVariableType → List SamplerRes
  | .Static => L.samStatic
  | .Mutable => L.samMut
  | .Dynamic => L.samDyn

/-- All non-sampler resources in `GetSrvCbvUav(r)` flat iteration order
(static, then mutable, then dynamic). -/
def allRes (L : Layout) : List SrvCbvUav :=
  L.resStatic ++ L.resMut ++ L.resDyn

/-- Embeds `GetAssignedSampler`: the sampler binding paired with a texture SRV,
looked up in the texture's own mutability class. -/
def getSamplerOf (L : Layout) (vt : ShaderVariableType) (sid : Nat) : SamplerRes :=
  (L.samOf vt).getD sid default

/-- Embeds `SRV_CBV_UAV::IsBound(ArrayIndex)`: true iff the root index is within
the cache's table range, the offset is within the table, and a non-null
object is cached there. -/
def isBoundRes (c : ResourceCache) (r : SrvCbvUav) (arrayIndex : Nat) : Bool :=
  if r.rootIndex < numRootTables c then
    if r.offsetFromTableStart + arrayIndex < tableLen c r.rootIndex then
      (getRes c r.rootIndex (r.offsetFromTableStart + arrayIndex)).pObject.isSome
    else false
  else false

/-- The diagnostics emitted by the binding engine (`LOG_ERROR_MESSAGE` /
`LOG_RESOURCE_BINDING_ERROR` call sites). -/
inductive LogEvent where
  | nullMappingError
  | wrongResourceTypeError
  | noUniformFlagError
  | wrongViewTypeError
  | alreadyBoundError
  | unbindWarning
  | samplerNotSetError
  | missingResourceError
  | noStaticResourceError
deriving DecidableEq

/-- Modelled from the spec: the `VERIFY_SHADER_BINDINGS` compile-time flag.
Its definition is in a header that is not part of the sources here; the spec
states unconditionally that a view of the wrong view kind is rejected
("views must match the declared view kind — shader-resource vs
unordered-access"), so the flag is modelled as enabled. -/
def verifyShaderBindings : Bool := true

/-- Embeds `SRV_CBV_UAV::CacheCB`: validate and record a constant buffer.
Returns the new cache entry (`none` when the entry is left untouched)
and the diagnostics. -/
def cacheCB (varType : ShaderVariableType) (resType : CachedResourceType)
    (obj : DeviceObject) (dst : CachedResource) :
    Option CachedResource × List LogEvent :=
  match obj with
  | .buffer id uniform =>
    if uniform then
      let o := DeviceObject.buffer id uniform
      let warn : List LogEvent :=
        if varType ≠ ShaderVariableType.Dynamic ∧ dst.pObject ≠ none ∧ dst.pObject ≠ some o
        then [.alreadyBoundError] else []
      (some { resType := resType, pObject := some o, cpuHandle := cpuHandleOf o }, warn)
    else (none, [.noUniformFlagError])
  | _ => (none, [.wrongResourceTypeError])

/-- Embeds `SRV_CBV_UAV::CacheResourceView` instantiated at `ITextureViewD3D12`:
validate and record a texture view. -/
def cacheTexView (varType : ShaderVariableType) (resType : CachedResourceType)
    (expected : TextureViewType) (obj : DeviceObject) (dst : CachedResource) :
    Option CachedResource × List LogEvent :=
  match obj with
  | .texView id vt sampId =>
    if verifyShaderBindings ∧ vt ≠ expected then (none, [.wrongViewTypeError])
    else
      let o := DeviceObject.texView id vt sampId
      let warn : List LogEvent :=
        if varType ≠ ShaderVariableType.Dynamic ∧ dst.pObject ≠ none ∧ dst.pObject ≠ some o
        then [.alreadyBoundError] else []
      (some { resType := resType, pObject := some o, cpuHandle := cpuHandleOf o }, warn)
  | _ => (none, [.wrongResourceTypeError])

/-- Embeds `SRV_CBV_UAV::CacheResourceView` instantiated at `IBufferViewD3D12`:
validate and record a buffer view. -/
def cacheBufView (varType : ShaderVariableType) (resType : CachedResourceType)
    (expected : BufferViewType) (obj : DeviceObject) (dst : CachedResource) :
    Option CachedResource × List LogEvent :=
  match obj with
  | .bufView id vt =>
    if verifyShaderBindings ∧ vt ≠ expected then (none, [.wrongViewTypeError])
    else
      let o := DeviceObject.bufView id vt
      let warn : List LogEvent :=
        if varType ≠ ShaderVariableType.Dynamic ∧ dst.pObject ≠ none ∧ dst.pObject ≠ some o
        then [.alreadyBoundError] else []
      (some { resType := resType, pObject := some o, cpuHandle := cpuHandleOf o }, warn)
  | _ => (none, [.wrongResourceTypeError])

/-- Embeds `Sampler::CacheSampler`: with a null texture view the sampler entry is
reset to the empty entry (no diagnostics); with a texture view carrying no
sampler an error is emitted and nothing is recorded; otherwise the view's
sampler is recorded (an overwrite of a different sampler on a non-dynamic
slot is logged but performed). -/
def cacheSampler (sam : SamplerRes) (texView : Option DeviceObject) (arrayIndex : Nat)
    (c : ResourceCache) : ResourceCache × List LogEvent :=
  let root := sam.rootIndex
  let off := sam.offsetFromTableStart + arrayIndex
  match texView with
  | some tv =>
    match viewSampler tv with
    | some ps =>
      let dst := getRes c root off
      let warn : List LogEvent :=
        if sam.attribs.varType ≠ ShaderVariableType.Dynamic ∧ dst.pObject ≠ none ∧
            dst.pObject ≠ some ps
        then [.alreadyBoundError] else []
      (setRes c root off
        { resType := .Sampler, pObject := some ps, cpuHandle := cpuHandleOf ps }, warn)
    | none => (c, [.samplerNotSetError])
  | none => (setRes c root off default, [])

/-- Embeds `SRV_CBV_UAV::BindResource`: bind `obj` (or unbind, when `none`) at
array element `arrayIndex`, dispatching on the resolved category, and
resolve the paired sampler of a texture SRV.  The fall-through for a
`Sampler`/`Unknown` category (`UNEXPECTED` in the source, unreachable for
layouts produced by construction) records nothing. -/
def bindResource (L : Layout) (r : SrvCbvUav) (obj : Option DeviceObject) (arrayIndex : Nat)
    (c : ResourceCache) : ResourceCache × List LogEvent :=
  let root := r.rootIndex
  let off := r.offsetFromTableStart + arrayIndex
  let dst := getRes c root off
  match obj with
  | some o =>
    match r.resType with
    | .CBV =>
      match cacheCB r.attribs.varType .CBV o dst with
      | (some d, logs) => (setRes c root off d, logs)
      | (none, logs) => (c, logs)
    | .TexSRV =>
      match cacheTexView r.attribs.varType .TexSRV .ShaderResource o dst with
      | (some d, logs) =>
        let c1 := setRes c root off d
        match r.samplerId with
        | some sid =>
          let sam := getSamplerOf L r.attribs.varType sid
          let samInd := if sam.attribs.bindCount > 1 then arrayIndex else 0
          match cacheSampler sam (some o) samInd c1 with
          | (c2, logs2) => (c2, logs ++ logs2)
        | none => (c1, logs)
      | (none, logs) => (c, logs)
    | .TexUAV =>
      match cacheTexView r.attribs.varType .TexUAV .UnorderedAccess o dst with
      | (some d, logs) => (setRes c root off d, logs)
      | (none, logs) => (c, logs)
    | .BufSRV =>
      match cacheBufView r.attribs.varType .BufSRV .ShaderResource o dst with
      | (some d, logs) => (setRes c root off d, logs)
      | (none, logs) => (c, logs)
    | .BufUAV =>
      match cacheBufView r.attribs.varType .BufUAV .UnorderedAccess o dst with
      | (some d, logs) => (setRes c root off d, logs)
      | (none, logs) => (c, logs)
    | _ => (c, [])
  | none =>
    let warn : List LogEvent :=
      if dst.pObject ≠ none ∧ r.attribs.varType ≠ ShaderVariableType.Dynamic
      then [.unbindWarning] else []
    let c1 := setRes c root off default
    match r.samplerId with
    | some sid =>
      let sam := getSamplerOf L r.attribs.varType sid
      let samInd := if sam.attribs.bindCount > 1 then arrayIndex else 0
      ((cacheSampler sam none samInd c1).1, warn)
    | none => (c1, warn)

/-- The `BIND_SHADER_RESOURCES_*` flags of `BindResources`. -/
structure BindFlags where
  reset : Bool
  updateUnresolved : Bool
  allResolved : Bool
deriving DecidableEq

/-- Embeds `IResourceMapping::GetResource(name, arrayIndex)`. -/
abbrev ResourceMapping := String → Nat → Option DeviceObject

/-- The (resource, array element) pairs visited by `BindResources`, in
iteration order. -/
def slotsOf (L : Layout) : List (SrvCbvUav × Nat) :=
  (allRes L).flatMap fun r => (List.range r.attribs.bindCount).map fun i => (r, i)

/-- The slot loop of `ShaderResourceLayoutD3D12::BindResources`.  The
returned flag is true iff the pass returned early (the
`BIND_SHADER_RESOURCES_UPDATE_UNRESOLVED` short-circuit). -/
def bindSlots (L : Layout) (m : ResourceMapping) (flags : BindFlags) :
    List (SrvCbvUav × Nat) → ResourceCache → ResourceCache × Bool
  | [], c => (c, false)
  | (r, i) :: rest, c =>
    let c1 := if flags.reset then (bindResource L r none i c).1 else c
    if flags.updateUnresolved && isBoundRes c1 r i then (c1, true)
    else
      let c2 :=
        match m r.attribs.name i with
        | some obj => (bindResource L r (some obj) i c1).1
        | none => c1
      bindSlots L m flags rest c2

/-- Embeds `ShaderResourceLayoutD3D12::BindResources`.  A null resource mapping
logs an error and returns with the cache untouched. -/
def bindResources (L : Layout) (m : Option ResourceMapping) (flags : BindFlags)
    (c : ResourceCache) : ResourceCache × Bool :=
  match m with
  | none => (c, true)
  | some m => bindSlots L m flags (slotsOf L) c

/-- The run-time category check performed by `CacheCB` /
`CacheResourceView` for each declared category: the object Caches
successfully iff this predicate holds. -/
def typeMatches : CachedResourceType → DeviceObject → Bool
  | .CBV, .buffer _ uniform => uniform
  | .TexSRV, .texView _ .ShaderResource _ => true
  | .TexUAV, .texView _ .UnorderedAccess _ => true
  | .BufSRV, .bufView _ .ShaderResource => true
  | .BufUAV, .bufView _ .UnorderedAccess => true
  | _, _ => false

/-- Concrete inputs for exercising `bindResource`: a mutable constant-buffer
binding at table 0, offset 0, and a one-slot cache already holding a bound
buffer. -/
def demoCBRes : SrvCbvUav :=
  { attribs := { name := "g_CB", bindPoint := 0, bindCount := 1,
                 varType := ShaderVariableType.Mutable },
    resType := .CBV, rootIndex := 0, offsetFromTableStart := 0, samplerId := none }

/-- A one-table, one-slot cache holding a bound constant buffer. -/
def demoBoundCache : ResourceCache :=
  ⟨[[{ resType := .CBV, pObject := some (.buffer 9 true), cpuHandle := 10 }]]⟩

/-- An empty layout (no resolved bindings). -/
def emptyLayout : Layout := ⟨[], [], [], [], [], []⟩

/-- A mutable texture-SRV binding (bind count 1) paired with the mutable
sampler slot 0 of `demoTexLayout`. -/
def demoTexRes : SrvCbvUav :=
  { attribs := { name := "g_Tex", bindPoint := 0, bindCount := 1,
                 varType := ShaderVariableType.Mutable },
    resType := .TexSRV, rootIndex := 0, offsetFromTableStart := 0, samplerId := some 0 }

/-- The sampler binding paired with `demoTexRes`, resolved at table 3. -/
def demoSamRes : SamplerRes :=
  { attribs := { name := "g_Tex_sampler", bindPoint := 0, bindCount := 1,
                 varType := ShaderVariableType.Mutable },
    rootIndex := 3, offsetFromTableStart := 0 }

/-- A layout holding `demoTexRes` and its paired sampler. -/
def demoTexLayout : Layout := ⟨[], [demoTexRes], [], [], [demoSamRes], []⟩

/-- A four-table cache in which both the texture slot (table 0) and its
sampler slot (table 3) hold bound objects, and table 2 holds an unrelated
bound buffer. -/
def demoTexCache : ResourceCache :=
  ⟨[[{ resType := .TexSRV, pObject := some (.texView 4 .ShaderResource (some 7)),
       cpuHandle := 5 }],
    [],
    [{ resType := .CBV, pObject := some (.buffer 9 true), cpuHandle := 10 }],
    [{ resType := .Sampler, pObject := some (.samplerObj 7), cpuHandle := 8 }]]⟩

/-- Two mutable constant-buffer bindings at table 2, offsets 0 and 1. -/
def demoUURes0 : SrvCbvUav :=
  { attribs := { name := "CB0", bindPoint := 0, bindCount := 1,
                 varType := ShaderVariableType.Mutable },
    resType := .CBV, rootIndex := 2, offsetFromTableStart := 0, samplerId := none }

/-- Second constant-buffer binding of the short-circuit scenario. -/
def demoUURes1 : SrvCbvUav :=
  { attribs := { name := "CB1", bindPoint := 1, bindCount := 1,
                 varType := ShaderVariableType.Mutable },
    resType := .CBV, rootIndex := 2, offsetFromTableStart := 1, samplerId := none }

/-- Layout holding the two constant-buffer bindings. -/
def demoUULayout : Layout := ⟨[], [demoUURes0, demoUURes1], [], [], [], []⟩

/-- A cache in which the first binding's slot is bound and the second's is
still unbound. -/
def demoUUCache : ResourceCache :=
  ⟨[[], [], [{ resType := .CBV, pObject := some (.buffer 3 true), cpuHandle := 4 }, {}], []]⟩

/-- A mapping that could resolve both names, showing that the slot after
the short-circuit point stays unprocessed even though it is unbound and
resolvable. -/
def demoUUMapping : ResourceMapping := fun n _ =>
  if n = "CB0" ∨ n = "CB1" then some (.buffer 3 true) else none

/-- The per-mutability-class body of the clone constructor
(`ShaderResourceLayoutD3D12(Owner, SrcLayout, ...)`): each source resource
is cloned in order; a resource with a valid sampler first clones the
source's paired sampler at the running `CurrSampler` counter position and
records that id.  The member-wise copy performed by the `SRV_CBV_UAV` /
`Sampler` clone constructors is modelled from the spec ("produce a new
layout whose ResolvedBindings have *identical* table/offset values to the
source — they are copied, not recomputed"), their declarations being in a
header that is not among the sources here. -/
def cloneResList (srcSams : List SamplerRes) :
    List SrvCbvUav → Nat → List SrvCbvUav × List SamplerRes
  | [], _ => ([], [])
  | r :: rest, curr =>
    match r.samplerId with
    | some sid =>
      let p := cloneResList srcSams rest (curr + 1)
      ({ r with samplerId := some curr } :: p.1, srcSams.getD sid default :: p.2)
    | none =>
      let p := cloneResList srcSams rest curr
      ({ r with samplerId := none } :: p.1, p.2)

/-- The clone constructor: clone every mutability class passing the filter
(a class that does not pass contributes no resources at all). -/
def cloneLayout (src : Layout) (allowed : ShaderVariableType → Bool) : Layout :=
  let st := if allowed .Static then cloneResList src.samStatic src.resStatic 0 else ([], [])
  let mu := if allowed .Mutable then cloneResList src.samMut src.resMut 0 else ([], [])
  let dy := if allowed .Dynamic then cloneResList src.samDyn src.resDyn 0 else ([], [])
  ⟨st.1, mu.1, dy.1, st.2, mu.2, dy.2⟩

/-- The shader's reflected attribute set (`ShaderResourcesD3D12`). -/
structure ShaderResources where
  cbs : List D3DShaderResourceAttribs
  texSRVs : List D3DShaderResourceAttribs
  texUAVs : List D3DShaderResourceAttribs
  bufSRVs : List D3DShaderResourceAttribs
  bufUAVs : List D3DShaderResourceAttribs
  samplers : List D3DShaderResourceAttribs
deriving DecidableEq

/-- Embeds `ProcessResources`: every resource of an allowed mutability class,
tagged with its category, in callback order (constant buffers, texture
SRVs, texture UAVs, buffer SRVs, buffer UAVs). -/
def processList (res : ShaderResources) (allowed : ShaderVariableType → Bool) :
    List (D3DShaderResourceAttribs × CachedResourceType) :=
  (res.cbs.filter (fun a => allowed a.varType)).map (fun a => (a, .CBV)) ++
  (res.texSRVs.filter (fun a => allowed a.varType)).map (fun a => (a, .TexSRV)) ++
  (res.texUAVs.filter (fun a => allowed a.varType)).map (fun a => (a, .TexUAV)) ++
  (res.bufSRVs.filter (fun a => allowed a.varType)).map (fun a => (a, .BufSRV)) ++
  (res.bufUAVs.filter (fun a => allowed a.varType)).map (fun a => (a, .BufUAV))

/-- Append a resolved resource to its mutability class's array. -/
def appendRes (L : Layout) (vt : ShaderVariableType) (r : SrvCbvUav) : Layout :=
  match vt with
  | .Static => { L with resStatic := L.resStatic ++ [r] }
  | .Mutable => { L with resMut := L.resMut ++ [r] }
  | .Dynamic => { L with resDyn := L.resDyn ++ [r] }

/-- Append a resolved sampler to its mutability class's array. -/
def appendSam (L : Layout) (vt : ShaderVariableType) (s : SamplerRes) : Layout :=
  match vt with
  | .Static => { L with samStatic := L.samStatic ++ [s] }
  | .Mutable => { L with samMut := L.samMut ++ [s] }
  | .Dynamic => { L with samDyn := L.samDyn ++ [s] }

/-- Running state of the second `ProcessResources` pass: the layout under
construction and the `MaxBindPoint` array (one `Int` per artificial root
table, initialised to −1 as in the source). -/
structure InitState where
  L : Layout
  maxBP : List Int

/-- Initial state of the pass. -/
def emptyInit : InitState := ⟨⟨[], [], [], [], [], []⟩, [-1, -1, -1, -1]⟩

/-- Embeds `MaxBindPoint[t] = max(MaxBindPoint[t], v)`. -/
def bumpMax (m : List Int) (t : Nat) (v : Int) : List Int :=
  m.set t (max (m.getD t (-1)) v)

/-- The `AddResource` lambda in static/default mode: root index is the
category's descriptor-range type, offset is the native bind point, and
`MaxBindPoint` tracks `Offset + BindCount`. -/
def addResource (st : InitState) (a : D3DShaderResourceAttribs)
    (rt : CachedResourceType) (samplerId : Option Nat) : InitState :=
  ⟨appendRes st.L a.varType
     { attribs := a, resType := rt, rootIndex := descriptorRangeType rt,
       offsetFromTableStart := a.bindPoint, samplerId := samplerId },
   bumpMax st.maxBP (descriptorRangeType rt) (Int.ofNat (a.bindPoint + a.bindCount))⟩

/-- One step of the second `ProcessResources` pass.  A texture SRV with a
valid, non-static associated sampler first resolves that sampler at the
fixed sampler table (root 3, offset = the sampler's bind point) and records
the running `CurrSampler` position as the texture's sampler id; a static
sampler is never assigned cache space. -/
def initStep (res : ShaderResources) (st : InitState)
    (item : D3DShaderResourceAttribs × CachedResourceType) : InitState :=
  match item with
  | (a, CachedResourceType.TexSRV) =>
    match a.samplerId with
    | some sid =>
      let samAttribs := res.samplers.getD sid default
      if samAttribs.staticSamplerFlag then
        addResource st a .TexSRV none
      else
        let st2 : InitState :=
          ⟨appendSam st.L a.varType
             { attribs := samAttribs, rootIndex := 3,
               offsetFromTableStart := samAttribs.bindPoint },
           bumpMax st.maxBP 3 (Int.ofNat (samAttribs.bindPoint + samAttribs.bindCount))⟩
        addResource st2 a .TexSRV (some (st.L.samOf a.varType).length)
    | none => addResource st a .TexSRV none
  | (a, rt) => addResource st a rt none

/-- Embeds `ShaderResourceLayoutD3D12::Initialize` with a resource cache and no
root signature (static/default mode): run the pass over all allowed
resources, then size the cache's four fixed tables to
`MaxBindPoint[t] + 1` each. -/
def initLayoutStatic (res : ShaderResources) (allowed : ShaderVariableType → Bool) :
    Layout × ResourceCache :=
  let st := (processList res allowed).foldl (initStep res) emptyInit
  (st.L, ⟨st.maxBP.map (fun m => List.replicate (m + 1).toNat default)⟩)

/-- The contributions one processed item makes to table `t`'s observed
`bind point + bind count` values (a texture SRV's non-static sampler
contributes to the sampler table before the texture contributes to the SRV
table). -/
def itemContribs (res : ShaderResources) (item : D3DShaderResourceAttribs × CachedResourceType)
    (t : Nat) : List Nat :=
  (match item with
   | (a, CachedResourceType.TexSRV) =>
     match a.samplerId with
     | some sid =>
       let samAttribs := res.samplers.getD sid default
       if samAttribs.staticSamplerFlag = false ∧ t = 3 then
         [samAttribs.bindPoint + samAttribs.bindCount]
       else []
     | none => []
   | _ => []) ++
  (if descriptorRangeType item.2 = t then [item.1.bindPoint + item.1.bindCount] else [])

/-- The claim's sizing quantity, written directly over the attribute set:
the maximum observed `bind point + bind count` over the resources assigned
to table `t` (−1 when no resource is assigned to the table). -/
def specMaxObserved (res : ShaderResources) (allowed : ShaderVariableType → Bool)
    (t : Nat) : Int :=
  ((processList res allowed).flatMap (fun item => itemContribs res item t)).foldl
    (fun m v => max m (Int.ofNat v)) (-1)

/-- The attribute set of the spec's scenario: a Static constant buffer at
bind point 0, a Mutable texture SRV with bind count 3 and a paired
non-static Mutable sampler at bind point 0, and a Dynamic buffer UAV at
bind point 0. -/
def scenRes : ShaderResources :=
  { cbs := [{ name := "g_CB", bindPoint := 0, bindCount := 1,
              varType := .Static }],
    texSRVs := [{ name := "g_Tex", bindPoint := 0, bindCount := 3,
                  varType := .Mutable, samplerId := some 0 }],
    texUAVs := [],
    bufSRVs := [],
    bufUAVs := [{ name := "g_UAV", bindPoint := 0, bindCount := 1,
                  varType := .Dynamic }],
    samplers := [{ name := "g_Tex_sampler", bindPoint := 0, bindCount := 1,
                   varType := .Mutable }] }

/-- The trivial mutability filter admitting every class. -/
def allowAll : ShaderVariableType → Bool := fun _ => true

/-- The structural invariant established by static/default-mode layout
construction: every resolved resource sits at the fixed table of its
category, at its native bind point, with a real (bindable) category, and
the `MaxBindPoint` entry of its table dominates its
`bind point + bind count`. -/
def InitResInv (st : InitState) : Prop :=
  st.maxBP.length = 4 ∧
  ∀ r ∈ allRes st.L,
    r.rootIndex = descriptorRangeType r.resType ∧
    r.offsetFromTableStart = r.attribs.bindPoint ∧
    r.resType ≠ CachedResourceType.Sampler ∧
    r.resType ≠ CachedResourceType.Unknown ∧
    Int.ofNat (r.attribs.bindPoint + r.attribs.bindCount) ≤
      st.maxBP.getD r.rootIndex (-1)

/-- A complete, well-typed resource mapping for the scenario attribute
set. -/
def scenMapping : ResourceMapping := fun n i =>
  if n = "g_CB" then some (.buffer 1 true)
  else if n = "g_Tex" then some (.texView (10 + i) .ShaderResource (some 20))
  else if n = "g_UAV" then some (.bufView 2 .UnorderedAccess)
  else none

/-- Running state of `CopyStaticResourceDesriptorHandles` over the
destination cache: the cache, the number of slot copies performed, the
diagnostics, and whether the static-resource consistency check has fired.
Modelled from the spec for the failure behaviour: the `VERIFY` macro is
defined in a header that is not among the sources here, and the spec's
error taxonomy states that a static-resource cache conflict aborts; a
failed check therefore sets the sticky `fatal` flag and stops all further
processing. -/
structure CopyState where
  cache : ResourceCache
  copies : Nat
  fatal : Bool
  logs : List LogEvent
deriving DecidableEq

/-- Copy one (source slot, destination slot) pair: log when the source
holds no object; copy (object, category, descriptor handle) when the
destination differs from the source and was empty; abort when the
destination already holds a different non-null object. -/
def copySlot (srcCache : ResourceCache) (sp dp : Nat × Nat) (st : CopyState) : CopyState :=
  if st.fatal then st
  else
    let srcRes := getRes srcCache sp.1 sp.2
    let st1 : CopyState :=
      if srcRes.pObject = none then { st with logs := st.logs ++ [.noStaticResourceError] }
      else st
    let dstRes := getRes st1.cache dp.1 dp.2
    if dstRes.pObject ≠ srcRes.pObject then
      if dstRes.pObject ≠ none then { st1 with fatal := true }
      else { st1 with cache := setRes st1.cache dp.1 dp.2 srcRes,
                      copies := st1.copies + 1 }
    else st1

/-- The (source, destination) slot pairs visited for one Static-class
resource: its array elements (source read from the per-category fixed
table at the bind point, destination at the resolved position), then its
paired sampler's array elements. -/
def staticResSlots (L : Layout) (r : SrvCbvUav) : List ((Nat × Nat) × (Nat × Nat)) :=
  ((List.range r.attribs.bindCount).map fun k =>
    ((descriptorRangeType r.resType, r.attribs.bindPoint + k),
     (r.rootIndex, r.offsetFromTableStart + k))) ++
  (match r.samplerId with
   | some sid =>
     (List.range (getSamplerOf L r.attribs.varType sid).attribs.bindCount).map fun k =>
       ((3, (getSamplerOf L r.attribs.varType sid).attribs.bindPoint + k),
        ((getSamplerOf L r.attribs.varType sid).rootIndex,
         (getSamplerOf L r.attribs.varType sid).offsetFromTableStart + k))
   | none => [])

/-- All slot pairs visited by `CopyStaticResourceDesriptorHandles`, in
iteration order over the destination layout's Static-class bindings. -/
def staticSlots (L : Layout) : List ((Nat × Nat) × (Nat × Nat)) :=
  L.resStatic.flatMap (staticResSlots L)

/-- Fold the slot-copy step over a list of slot pairs. -/
def copyFold (srcCache : ResourceCache) (ps : List ((Nat × Nat) × (Nat × Nat)))
    (st : CopyState) : CopyState :=
  ps.foldl (fun st p => copySlot srcCache p.1 p.2 st) st

/-- Embeds `ShaderResourceLayoutD3D12::CopyStaticResourceDesriptorHandles`:
process every Static-class binding of the destination layout, copying from
the source cache into the destination cache. -/
def copyStaticAll (L : Layout) (srcCache dstCache : ResourceCache) : CopyState :=
  copyFold srcCache (staticSlots L)
    { cache := dstCache, copies := 0, fatal := false, logs := [] }

/-- A Static-class constant buffer resolved at the fixed CBV table
(root 2), bind point 0. -/
def demoStaticRes : SrvCbvUav :=
  { attribs := { name := "g_SCB", bindPoint := 0, bindCount := 1,
                 varType := ShaderVariableType.Static },
    resType := .CBV, rootIndex := 2, offsetFromTableStart := 0, samplerId := none }

/-- A layout holding one Static constant buffer. -/
def demoStaticLayout : Layout := ⟨[demoStaticRes], [], [], [], [], []⟩

/-- A source (static-resource) cache holding a buffer at CBV table slot 0. -/
def demoSrcCache : ResourceCache :=
  ⟨[[], [], [{ resType := .CBV, pObject := some (.buffer 5 true), cpuHandle := 6 }], []]⟩

/-- An empty destination cache with one CBV slot. -/
def demoDstCacheEmpty : ResourceCache := ⟨[[], [], [{}], []]⟩

/-- A destination cache whose CBV slot already holds a different buffer. -/
def demoDstCacheConflict : ResourceCache :=
  ⟨[[], [], [{ resType := .CBV, pObject := some (.buffer 7 true), cpuHandle := 8 }], []]⟩

/-! ## Theorems -/

theorem tables_length_setRes (c : ResourceCache) (root off : Nat) (r : CachedResource) :
    (setRes c root off r).tables.length = c.tables.length := by
  simp [setRes]

theorem tableLen_setRes (c : ResourceCache) (root off : Nat) (r : CachedResource) (t : Nat) :
    tableLen (setRes c root off r) t = tableLen c t := by
  unfold tableLen setRes
  simp only [List.getD_eq_getElem?_getD, List.getElem?_set]
  by_cases h : root = t
  · subst h
    by_cases hr : root < c.tables.length
    · simp [hr]
    · simp [hr, List.getElem?_eq_none (Nat.le_of_not_lt hr)]
  · simp [h]

theorem getRes_setRes_same (c : ResourceCache) (root off : Nat) (r : CachedResource)
    (hroot : root < numRootTables c) (hoff : off < tableLen c root) :
    getRes (setRes c root off r) root off = r := by
  unfold numRootTables at hroot
  unfold tableLen at hoff
  unfold getRes setRes
  simp only [List.getD_eq_getElem?_getD] at hoff ⊢
  rw [List.getElem?_eq_getElem hroot] at hoff
  simp only [Option.getD_some] at hoff
  simp [List.getElem?_set, hroot, hoff]

theorem getRes_setRes_ne (c : ResourceCache) (root off root2 off2 : Nat) (r : CachedResource)
    (h : root ≠ root2 ∨ off ≠ off2) :
    getRes (setRes c root off r) root2 off2 = getRes c root2 off2 := by
  unfold getRes setRes
  by_cases heq : root = root2
  · subst heq
    have hoff : off ≠ off2 := by tauto
    by_cases hr : root < c.tables.length
    · simp [List.getD_eq_getElem?_getD, List.getElem?_set, hr, hoff]
    · rw [List.set_eq_of_length_le (Nat.le_of_not_lt hr)]
  · simp [List.getD_eq_getElem?_getD, List.getElem?_set, heq]

/-- C10: `IsBound(binding, arrayIndex)` is total over out-of-range
resolved positions: it returns `true` iff the binding's root index is below
the cache's table count, the offset plus array index is below that table's
size, and a non-null object is cached at that position — in particular it
returns `false` (rather than faulting) whenever either bound is violated,
and returns `true` only for a non-null object at a valid position. -/
theorem isBoundRes_iff (c : ResourceCache) (r : SrvCbvUav) (i : Nat) :
    isBoundRes c r i = true ↔
      r.rootIndex < numRootTables c ∧
      r.offsetFromTableStart + i < tableLen c r.rootIndex ∧
      (getRes c r.rootIndex (r.offsetFromTableStart + i)).pObject.isSome = true := by
  unfold isBoundRes
  by_cases h1 : r.rootIndex < numRootTables c
  · by_cases h2 : r.offsetFromTableStart + i < tableLen c r.rootIndex
    · simp [h1, h2]
    · simp [h1, h2]
  · simp [h1]

theorem isBound_total_iff (c : ResourceCache) (r : SrvCbvUav) (i : Nat) :
    isBoundRes c r i = true ↔
      r.rootIndex < numRootTables c ∧
      r.offsetFromTableStart + i < tableLen c r.rootIndex ∧
      (getRes c r.rootIndex (r.offsetFromTableStart + i)).pObject.isSome = true :=
  isBoundRes_iff c r i

/-- C2: For every binding slot and every prior cache state, binding a
non-null object whose runtime category does not match the declared category
(wrong interface, buffer without the constant-buffer capability, or wrong
view kind) leaves the whole cache unchanged and emits exactly one error;
nothing is recorded. -/
theorem cacheCB_mismatch (varType : ShaderVariableType) (rt : CachedResourceType)
    (obj : DeviceObject) (dst : CachedResource)
    (hmis : typeMatches CachedResourceType.CBV obj = false) :
    cacheCB varType rt obj dst = (none, [LogEvent.wrongResourceTypeError]) ∨
    cacheCB varType rt obj dst = (none, [LogEvent.noUniformFlagError]) := by
  cases obj <;> simp_all [cacheCB, typeMatches]

theorem cacheTexView_mismatch (varType : ShaderVariableType) (rt : CachedResourceType)
    (expected : TextureViewType) (obj : DeviceObject) (dst : CachedResource)
    (h : ∀ id sid, obj ≠ DeviceObject.texView id expected sid) :
    cacheTexView varType rt expected obj dst = (none, [LogEvent.wrongResourceTypeError]) ∨
    cacheTexView varType rt expected obj dst = (none, [LogEvent.wrongViewTypeError]) := by
  cases obj with
  | texView id vt sid =>
    have hvt : vt ≠ expected := fun hv => h id sid (by rw [hv])
    right
    simp [cacheTexView, verifyShaderBindings, hvt]
  | buffer id uni => left; simp [cacheTexView]
  | bufView id vt => left; simp [cacheTexView]
  | samplerObj id => left; simp [cacheTexView]

theorem cacheBufView_mismatch (varType : ShaderVariableType) (rt : CachedResourceType)
    (expected : BufferViewType) (obj : DeviceObject) (dst : CachedResource)
    (h : ∀ id, obj ≠ DeviceObject.bufView id expected) :
    cacheBufView varType rt expected obj dst = (none, [LogEvent.wrongResourceTypeError]) ∨
    cacheBufView varType rt expected obj dst = (none, [LogEvent.wrongViewTypeError]) := by
  cases obj with
  | bufView id vt =>
    have hvt : vt ≠ expected := fun hv => h id (by rw [hv])
    right
    simp [cacheBufView, verifyShaderBindings, hvt]
  | buffer id uni => left; simp [cacheBufView]
  | texView id vt sid => left; simp [cacheBufView]
  | samplerObj id => left; simp [cacheBufView]

theorem bindResource_typeMismatch (L : Layout) (r : SrvCbvUav) (obj : DeviceObject)
    (i : Nat) (c : ResourceCache)
    (hcat : r.resType ≠ CachedResourceType.Sampler ∧ r.resType ≠ CachedResourceType.Unknown)
    (hmis : typeMatches r.resType obj = false) :
    (bindResource L r (some obj) i c).1 = c ∧
    ∃ e, (bindResource L r (some obj) i c).2 = [e] ∧
      (e = LogEvent.wrongResourceTypeError ∨ e = LogEvent.noUniformFlagError ∨
       e = LogEvent.wrongViewTypeError) := by
  rcases hcat with ⟨hs, hu⟩
  cases hr : r.resType
  case Sampler => exact absurd hr hs
  case Unknown => exact absurd hr hu
  case CBV =>
    rw [hr] at hmis
    rcases cacheCB_mismatch r.attribs.varType .CBV obj
        (getRes c r.rootIndex (r.offsetFromTableStart + i)) hmis with heq | heq <;>
      · refine ⟨?_, ?_⟩ <;> simp [bindResource, hr, heq]
  case TexSRV =>
    rw [hr] at hmis
    have h : ∀ id sid, obj ≠ DeviceObject.texView id TextureViewType.ShaderResource sid := by
      intro id sid hobj; subst hobj; simp [typeMatches] at hmis
    rcases cacheTexView_mismatch r.attribs.varType .TexSRV .ShaderResource obj
        (getRes c r.rootIndex (r.offsetFromTableStart + i)) h with heq | heq <;>
      · refine ⟨?_, ?_⟩ <;> simp [bindResource, hr, heq]
  case TexUAV =>
    rw [hr] at hmis
    have h : ∀ id sid, obj ≠ DeviceObject.texView id TextureViewType.UnorderedAccess sid := by
      intro id sid hobj; subst hobj; simp [typeMatches] at hmis
    rcases cacheTexView_mismatch r.attribs.varType .TexUAV .UnorderedAccess obj
        (getRes c r.rootIndex (r.offsetFromTableStart + i)) h with heq | heq <;>
      · refine ⟨?_, ?_⟩ <;> simp [bindResource, hr, heq]
  case BufSRV =>
    rw [hr] at hmis
    have h : ∀ id, obj ≠ DeviceObject.bufView id BufferViewType.ShaderResource := by
      intro id hobj; subst hobj; simp [typeMatches] at hmis
    rcases cacheBufView_mismatch r.attribs.varType .BufSRV .ShaderResource obj
        (getRes c r.rootIndex (r.offsetFromTableStart + i)) h with heq | heq <;>
      · refine ⟨?_, ?_⟩ <;> simp [bindResource, hr, heq]
  case BufUAV =>
    rw [hr] at hmis
    have h : ∀ id, obj ≠ DeviceObject.bufView id BufferViewType.UnorderedAccess := by
      intro id hobj; subst hobj; simp [typeMatches] at hmis
    rcases cacheBufView_mismatch r.attribs.varType .BufUAV .UnorderedAccess obj
        (getRes c r.rootIndex (r.offsetFromTableStart + i)) h with heq | heq <;>
      · refine ⟨?_, ?_⟩ <;> simp [bindResource, hr, heq]

theorem bindResource_typeMismatch_witness :
    (bindResource emptyLayout demoCBRes
        (some (DeviceObject.texView 5 TextureViewType.ShaderResource none)) 0
        demoBoundCache).1 = demoBoundCache ∧
    ∃ e, (bindResource emptyLayout demoCBRes
        (some (DeviceObject.texView 5 TextureViewType.ShaderResource none)) 0
        demoBoundCache).2 = [e] ∧
      (e = LogEvent.wrongResourceTypeError ∨ e = LogEvent.noUniformFlagError ∨
       e = LogEvent.wrongViewTypeError) :=
  bindResource_typeMismatch emptyLayout demoCBRes
    (DeviceObject.texView 5 TextureViewType.ShaderResource none) 0 demoBoundCache
    (by decide) (by decide)

theorem numRootTables_setRes (c : ResourceCache) (root off : Nat) (r : CachedResource) :
    numRootTables (setRes c root off r) = numRootTables c :=
  tables_length_setRes c root off r

theorem getRes_oob (c : ResourceCache) (root off : Nat)
    (h : ¬ root < numRootTables c ∨ ¬ off < tableLen c root) :
    getRes c root off = default := by
  unfold numRootTables tableLen at h
  unfold getRes
  rcases h with h | h
  · have he : c.tables.getD root [] = [] := by
      simp [List.getD_eq_getElem?_getD, List.getElem?_eq_none (Nat.le_of_not_lt h)]
    rw [he]
    rfl
  · rw [List.getD_eq_getElem?_getD] at h
    simp [List.getD_eq_getElem?_getD, List.getElem?_eq_none (Nat.le_of_not_lt h)]

theorem setRes_default_clears (c : ResourceCache) (root off : Nat) :
    getRes (setRes c root off default) root off = default := by
  by_cases h1 : root < numRootTables c
  · by_cases h2 : off < tableLen c root
    · exact getRes_setRes_same c root off default h1 h2
    · exact getRes_oob _ root off
        (Or.inr (by rw [tableLen_setRes]; exact h2))
  · exact getRes_oob _ root off
      (Or.inl (by rw [numRootTables_setRes]; exact h1))

theorem setRes_default_keeps_cleared (c : ResourceCache) (root off root2 off2 : Nat)
    (h : getRes c root off = default) :
    getRes (setRes c root2 off2 default) root off = default := by
  by_cases heq : root2 = root ∧ off2 = off
  · rw [heq.1, heq.2]
    exact setRes_default_clears c root off
  · rw [getRes_setRes_ne c root2 off2 root off default (by tauto)]
    exact h

/-- C5: `BindResource` with a null object always clears the cache
entry; a Dynamic-class binding never logs a discipline warning regardless
of prior state; a non-Dynamic binding whose slot previously held a
non-null object logs exactly one warning while the entry is still cleared
(execution continues: the result is an ordinary cache state). -/
theorem bindResource_null_clears (L : Layout) (r : SrvCbvUav) (i : Nat) (c : ResourceCache) :
    getRes (bindResource L r none i c).1 r.rootIndex (r.offsetFromTableStart + i) = default ∧
    (r.attribs.varType = ShaderVariableType.Dynamic → (bindResource L r none i c).2 = []) ∧
    (r.attribs.varType ≠ ShaderVariableType.Dynamic →
      (getRes c r.rootIndex (r.offsetFromTableStart + i)).pObject ≠ none →
      (bindResource L r none i c).2 = [LogEvent.unbindWarning]) := by
  cases hsid : r.samplerId with
  | none =>
    refine ⟨?_, ?_, ?_⟩
    · simp only [bindResource, hsid]
      exact setRes_default_clears c r.rootIndex (r.offsetFromTableStart + i)
    · intro hdyn
      simp [bindResource, hsid, hdyn]
    · intro hdyn hprev
      simp [bindResource, hsid, hdyn, hprev]
  | some sid =>
    refine ⟨?_, ?_, ?_⟩
    · simp only [bindResource, hsid, cacheSampler]
      exact setRes_default_keeps_cleared _ _ _ _ _
        (setRes_default_clears c r.rootIndex (r.offsetFromTableStart + i))
    · intro hdyn
      simp [bindResource, hsid, hdyn]
    · intro hdyn hprev
      simp [bindResource, hsid, hdyn, hprev]

theorem bindResource_null_clears_witness :
    (bindResource emptyLayout demoCBRes none 0 demoBoundCache).2 = [LogEvent.unbindWarning] :=
  (bindResource_null_clears emptyLayout demoCBRes 0 demoBoundCache).2.2
    (by decide) (by decide)

/-- C9: For a texture-SRV binding with a valid (non-static) paired
sampler, `BindResource` with a null object clears the texture's cache slot
and the paired sampler's cache slot — at sampler array index equal to the
texture array index when the sampler is arrayed and at index 0 when the
sampler's bind count is 1 — and modifies no other cache slot. -/
theorem bindResource_null_texSRV_clears_sampler (L : Layout) (r : SrvCbvUav) (i : Nat)
    (c : ResourceCache) (sid : Nat)
    (hres : r.resType = CachedResourceType.TexSRV)
    (hsid : r.samplerId = some sid) :
    let sam := getSamplerOf L r.attribs.varType sid
    let samInd := if sam.attribs.bindCount > 1 then i else 0
    let c2 := (bindResource L r none i c).1
    getRes c2 r.rootIndex (r.offsetFromTableStart + i) = default ∧
    getRes c2 sam.rootIndex (sam.offsetFromTableStart + samInd) = default ∧
    ∀ t o, (t ≠ r.rootIndex ∨ o ≠ r.offsetFromTableStart + i) →
      (t ≠ sam.rootIndex ∨ o ≠ sam.offsetFromTableStart + samInd) →
      getRes c2 t o = getRes c t o := by
  intro sam samInd c2
  have hc2 : c2 = setRes (setRes c r.rootIndex (r.offsetFromTableStart + i) default)
      sam.rootIndex (sam.offsetFromTableStart + samInd) default := by
    simp only [c2, sam, samInd, bindResource, hsid, cacheSampler]
  refine ⟨?_, ?_, ?_⟩
  · rw [hc2]
    exact setRes_default_keeps_cleared _ _ _ _ _
      (setRes_default_clears c r.rootIndex (r.offsetFromTableStart + i))
  · rw [hc2]
    exact setRes_default_clears _ _ _
  · intro t o hres2 hsam2
    rw [hc2, getRes_setRes_ne _ _ _ _ _ _ (by tauto),
      getRes_setRes_ne _ _ _ _ _ _ (by tauto)]

theorem bindResource_null_texSRV_clears_sampler_witness :
    getRes (bindResource demoTexLayout demoTexRes none 0 demoTexCache).1 3 0 = default :=
  (bindResource_null_texSRV_clears_sampler demoTexLayout demoTexRes 0 demoTexCache 0
    rfl rfl).2.1

theorem bindSlots_append (L : Layout) (m : ResourceMapping) (f : BindFlags)
    (xs ys : List (SrvCbvUav × Nat)) (c : ResourceCache) :
    bindSlots L m f (xs ++ ys) c =
      (if (bindSlots L m f xs c).2 then bindSlots L m f xs c
       else bindSlots L m f ys (bindSlots L m f xs c).1) := by
  induction xs generalizing c with
  | nil => simp [bindSlots]
  | cons s rest ih =>
    obtain ⟨r, i⟩ := s
    simp only [List.cons_append, bindSlots]
    by_cases h : (f.updateUnresolved &&
        isBoundRes (if f.reset then (bindResource L r none i c).1 else c) r i) = true
    · simp [h]
    · simp only [h, if_false, Bool.false_eq_true]
      exact ih _

/-- C6: `BindResources` invoked with the `UPDATE_UNRESOLVED` flag
returns from the entire pass at the first slot encountered in iteration
order that is already bound: if the slots up to that point were processed
without an early return, producing cache `c1`, and the next slot is bound
in `c1`, the whole pass returns `(c1, early)` — every later-iterated slot
(bound or not) is left unprocessed. -/
theorem bindResources_updateUnresolved_shortCircuit (L : Layout) (m : ResourceMapping)
    (aFlag : Bool) (pre : List (SrvCbvUav × Nat)) (b : SrvCbvUav × Nat)
    (post : List (SrvCbvUav × Nat)) (c c1 : ResourceCache)
    (hslots : slotsOf L = pre ++ b :: post)
    (hpre : bindSlots L m ⟨false, true, aFlag⟩ pre c = (c1, false))
    (hbound : isBoundRes c1 b.1 b.2 = true) :
    bindResources L (some m) ⟨false, true, aFlag⟩ c = (c1, true) := by
  show bindSlots L m ⟨false, true, aFlag⟩ (slotsOf L) c = (c1, true)
  rw [hslots, bindSlots_append, hpre]
  obtain ⟨r, i⟩ := b
  simp only [bindSlots]
  simp [hbound]

theorem bindResources_updateUnresolved_shortCircuit_witness :
    bindResources demoUULayout (some demoUUMapping) ⟨false, true, false⟩ demoUUCache =
      (demoUUCache, true) :=
  bindResources_updateUnresolved_shortCircuit demoUULayout demoUUMapping false
    [] (demoUURes0, 0) [(demoUURes1, 0)] demoUUCache demoUUCache
    (by decide) rfl (by decide)

theorem cloneResList_spec (srcSams : List SamplerRes) (l : List SrvCbvUav)
    (curr k : Nat) (hk : k < l.length) :
    ((cloneResList srcSams l curr).1.getD k default).rootIndex =
        (l.getD k default).rootIndex ∧
    ((cloneResList srcSams l curr).1.getD k default).offsetFromTableStart =
        (l.getD k default).offsetFromTableStart ∧
    ((cloneResList srcSams l curr).1.getD k default).resType =
        (l.getD k default).resType ∧
    ((cloneResList srcSams l curr).1.getD k default).attribs =
        (l.getD k default).attribs ∧
    ((l.getD k default).samplerId = none →
      ((cloneResList srcSams l curr).1.getD k default).samplerId = none) ∧
    (∀ sid, (l.getD k default).samplerId = some sid →
      ∃ j, ((cloneResList srcSams l curr).1.getD k default).samplerId = some (curr + j) ∧
        (cloneResList srcSams l curr).2.getD j default = srcSams.getD sid default) := by
  induction l generalizing curr k with
  | nil => exact absurd hk (by simp)
  | cons r rest ih =>
    cases k with
    | zero =>
      cases hs : r.samplerId with
      | some sid =>
        refine ⟨?_, ?_, ?_, ?_, ?_, ?_⟩ <;>
          simp [cloneResList, hs]
      | none =>
        refine ⟨?_, ?_, ?_, ?_, ?_, ?_⟩ <;>
          simp [cloneResList, hs]
    | succ k =>
      have hk2 : k < rest.length := by simpa using hk
      cases hs : r.samplerId with
      | some sid =>
        obtain ⟨h1, h2, h3, h4, h5, h6⟩ := ih (curr + 1) k hk2
        refine ⟨?_, ?_, ?_, ?_, ?_, ?_⟩ <;>
          simp only [cloneResList, hs, List.getD_cons_succ]
        · exact h1
        · exact h2
        · exact h3
        · exact h4
        · exact h5
        · intro sid2 hsid2
          obtain ⟨j, hj1, hj2⟩ := h6 sid2 hsid2
          refine ⟨j + 1, ?_, ?_⟩
          · rw [hj1]; ring_nf
          · simpa using hj2
      | none =>
        obtain ⟨h1, h2, h3, h4, h5, h6⟩ := ih curr k hk2
        refine ⟨?_, ?_, ?_, ?_, ?_, ?_⟩ <;>
          simp only [cloneResList, hs, List.getD_cons_succ]
        · exact h1
        · exact h2
        · exact h3
        · exact h4
        · exact h5
        · exact h6

/-- C3: The clone operation produces a layout in which every resolved
binding — including each texture's paired sampler binding — carries a
(table index, offset) pair (indeed, all resolved fields) equal to the
corresponding binding of the source layout, for every binding in the
filtered set. -/
theorem cloneLayout_preserves_bindings (src : Layout) (allowed : ShaderVariableType → Bool)
    (vt : ShaderVariableType) (hvt : allowed vt = true) (k : Nat)
    (hk : k < (src.resOf vt).length) :
    let cl := cloneLayout src allowed
    let cr := (cl.resOf vt).getD k default
    let sr := (src.resOf vt).getD k default
    cr.rootIndex = sr.rootIndex ∧
    cr.offsetFromTableStart = sr.offsetFromTableStart ∧
    cr.resType = sr.resType ∧
    cr.attribs = sr.attribs ∧
    (sr.samplerId = none → cr.samplerId = none) ∧
    (∀ sid, sr.samplerId = some sid →
      ∃ j, cr.samplerId = some j ∧ getSamplerOf cl vt j = getSamplerOf src vt sid) := by
  intro cl cr sr
  have hcl : (cl.resOf vt, cl.samOf vt) =
      cloneResList (src.samOf vt) (src.resOf vt) 0 := by
    cases vt <;> simp [cl, cloneLayout, Layout.resOf, Layout.samOf, hvt]
  obtain ⟨h1, h2, h3, h4, h5, h6⟩ := cloneResList_spec (src.samOf vt) (src.resOf vt) 0 k hk
  have hres : cl.resOf vt = (cloneResList (src.samOf vt) (src.resOf vt) 0).1 :=
    congrArg Prod.fst hcl
  have hsam : cl.samOf vt = (cloneResList (src.samOf vt) (src.resOf vt) 0).2 :=
    congrArg Prod.snd hcl
  refine ⟨?_, ?_, ?_, ?_, ?_, ?_⟩
  · rw [show cr = (cl.resOf vt).getD k default from rfl, hres]; exact h1
  · rw [show cr = (cl.resOf vt).getD k default from rfl, hres]; exact h2
  · rw [show cr = (cl.resOf vt).getD k default from rfl, hres]; exact h3
  · rw [show cr = (cl.resOf vt).getD k default from rfl, hres]; exact h4
  · rw [show cr = (cl.resOf vt).getD k default from rfl, hres]; exact h5
  · intro sid hsid
    obtain ⟨j, hj1, hj2⟩ := h6 sid hsid
    refine ⟨j, ?_, ?_⟩
    · rw [show cr = (cl.resOf vt).getD k default from rfl, hres]
      simpa using hj1
    · unfold getSamplerOf
      rw [hsam]
      exact hj2

theorem cloneLayout_preserves_bindings_witness :
    ((cloneLayout demoTexLayout (fun _ => true)).resOf ShaderVariableType.Mutable
        |>.getD 0 default).rootIndex =
      ((demoTexLayout.resOf ShaderVariableType.Mutable).getD 0 default).rootIndex :=
  (cloneLayout_preserves_bindings demoTexLayout (fun _ => true)
    ShaderVariableType.Mutable rfl 0 (by decide)).1

theorem bumpMax_length (m : List Int) (root : Nat) (v : Int) :
    (bumpMax m root v).length = m.length := by
  simp [bumpMax]

theorem bumpMax_getD_fold (m : List Int) (root : Nat) (v : Int) (t : Nat)
    (hroot : root < m.length) :
    (bumpMax m root v).getD t (-1) =
      if root = t then max (m.getD t (-1)) v else m.getD t (-1) := by
  unfold bumpMax
  by_cases h : root = t
  · subst h
    simp [List.getD_eq_getElem?_getD, List.getElem?_set, hroot,
      List.getElem?_eq_getElem hroot]
  · simp [List.getD_eq_getElem?_getD, List.getElem?_set, h]

theorem initStep_maxBP_length (res : ShaderResources) (st : InitState)
    (item : D3DShaderResourceAttribs × CachedResourceType) :
    (initStep res st item).maxBP.length = st.maxBP.length := by
  obtain ⟨a, rt⟩ := item
  cases rt <;> simp only [initStep, addResource, bumpMax_length]
  cases a.samplerId <;> simp only [addResource, bumpMax_length]
  split <;> simp [addResource, bumpMax_length]

theorem initStep_maxBP_getD (res : ShaderResources) (st : InitState)
    (item : D3DShaderResourceAttribs × CachedResourceType) (t : Nat)
    (hlen : st.maxBP.length = 4) :
    (initStep res st item).maxBP.getD t (-1) =
      (itemContribs res item t).foldl (fun m v => max m (Int.ofNat v))
        (st.maxBP.getD t (-1)) := by
  obtain ⟨a, rt⟩ := item
  have h0 : (0 : Nat) < st.maxBP.length := by omega
  have h1 : (1 : Nat) < st.maxBP.length := by omega
  have h2 : (2 : Nat) < st.maxBP.length := by omega
  have h3 : (3 : Nat) < st.maxBP.length := by omega
  cases rt
  case CBV =>
    simp only [initStep, addResource, itemContribs, descriptorRangeType]
    rw [bumpMax_getD_fold _ _ _ _ h2]
    by_cases h : (2 : Nat) = t <;> simp [h]
  case BufSRV =>
    simp only [initStep, addResource, itemContribs, descriptorRangeType]
    rw [bumpMax_getD_fold _ _ _ _ h0]
    by_cases h : (0 : Nat) = t <;> simp [h]
  case TexUAV =>
    simp only [initStep, addResource, itemContribs, descriptorRangeType]
    rw [bumpMax_getD_fold _ _ _ _ h1]
    by_cases h : (1 : Nat) = t <;> simp [h]
  case BufUAV =>
    simp only [initStep, addResource, itemContribs, descriptorRangeType]
    rw [bumpMax_getD_fold _ _ _ _ h1]
    by_cases h : (1 : Nat) = t <;> simp [h]
  case Sampler =>
    simp only [initStep, addResource, itemContribs, descriptorRangeType]
    rw [bumpMax_getD_fold _ _ _ _ h3]
    by_cases h : (3 : Nat) = t <;> simp [h]
  case Unknown =>
    simp only [initStep, addResource, itemContribs, descriptorRangeType]
    rw [bumpMax_getD_fold _ _ _ _ h0]
    by_cases h : (0 : Nat) = t <;> simp [h]
  case TexSRV =>
    cases hs : a.samplerId with
    | none =>
      simp only [initStep, hs, addResource, itemContribs, descriptorRangeType]
      rw [bumpMax_getD_fold _ _ _ _ h0]
      by_cases h : (0 : Nat) = t <;> simp [h]
    | some sid =>
      by_cases hflag : (res.samplers.getD sid default).staticSamplerFlag
      · simp only [initStep, hs, hflag, if_true, addResource, itemContribs,
          descriptorRangeType]
        rw [bumpMax_getD_fold _ _ _ _ h0]
        by_cases h : (0 : Nat) = t <;> simp [h, hflag]
      · have hflag2 : (res.samplers.getD sid default).staticSamplerFlag = false := by
          simpa using hflag
        simp only [initStep, hs, hflag2, Bool.false_eq_true, if_false, addResource,
          itemContribs, descriptorRangeType]
        rw [bumpMax_getD_fold
            (bumpMax st.maxBP 3
              (Int.ofNat ((res.samplers.getD sid default).bindPoint +
                (res.samplers.getD sid default).bindCount)))
            0 (Int.ofNat (a.bindPoint + a.bindCount)) t
            (by rw [bumpMax_length]; exact h0),
          bumpMax_getD_fold st.maxBP 3
            (Int.ofNat ((res.samplers.getD sid default).bindPoint +
              (res.samplers.getD sid default).bindCount)) t h3]
        by_cases ht3 : t = 3
        · subst ht3
          simp
        · by_cases ht0 : (0 : Nat) = t
          · subst ht0
            simp [ht3]
          · have h3t : ¬ ((3 : Nat) = t) := fun h => ht3 h.symm
            simp [ht3, ht0, h3t]

theorem foldl_initStep_maxBP_length (res : ShaderResources)
    (items : List (D3DShaderResourceAttribs × CachedResourceType)) (st : InitState) :
    ((items.foldl (initStep res) st).maxBP).length = st.maxBP.length := by
  induction items generalizing st with
  | nil => rfl
  | cons x rest ih => rw [List.foldl_cons, ih, initStep_maxBP_length]

theorem foldl_initStep_maxBP_getD (res : ShaderResources)
    (items : List (D3DShaderResourceAttribs × CachedResourceType)) (st : InitState)
    (t : Nat) (hlen : st.maxBP.length = 4) :
    ((items.foldl (initStep res) st).maxBP).getD t (-1) =
      (items.flatMap (fun it => itemContribs res it t)).foldl
        (fun m v => max m (Int.ofNat v)) (st.maxBP.getD t (-1)) := by
  induction items generalizing st with
  | nil => rfl
  | cons x rest ih =>
    rw [List.foldl_cons, List.flatMap_cons, List.foldl_append,
      ← initStep_maxBP_getD res st x t hlen]
    exact ih (initStep res st x) (by rw [initStep_maxBP_length]; exact hlen)

/-- The `MaxBindPoint` array of the completed pass holds exactly the spec's
maximum-observed quantity for every table. -/
theorem initLayoutStatic_maxBP (res : ShaderResources)
    (allowed : ShaderVariableType → Bool) (t : Nat) :
    (((processList res allowed).foldl (initStep res) emptyInit).maxBP).getD t (-1) =
      specMaxObserved res allowed t := by
  rw [foldl_initStep_maxBP_getD res _ emptyInit t rfl]
  unfold specMaxObserved
  have hstart : (emptyInit.maxBP).getD t (-1) = -1 := by
    rcases t with _ | _ | _ | _ | t <;> rfl
  rw [hstart]

/-- The spec quantity is at least −1 (it is a max starting from −1). -/
theorem specMaxObserved_ge (res : ShaderResources) (allowed : ShaderVariableType → Bool)
    (t : Nat) : -1 ≤ specMaxObserved res allowed t := by
  unfold specMaxObserved
  generalize ((processList res allowed).flatMap (fun it => itemContribs res it t)) = l
  have hgen : ∀ (l : List Nat) (s : Int),
      s ≤ l.foldl (fun m v => max m (Int.ofNat v)) s := by
    intro l
    induction l with
    | nil => intro s; exact le_refl s
    | cons v rest ih =>
      intro s
      exact le_trans (le_max_left s (Int.ofNat v)) (ih (max s (Int.ofNat v)))
  exact hgen l (-1)

/-- Helper: the exact size of each fixed cache table produced by
static/default-mode construction. -/
theorem initLayoutStatic_tableLen_eq (res : ShaderResources)
    (allowed : ShaderVariableType → Bool) (t : Nat) :
    tableLen ((initLayoutStatic res allowed).2) t =
      (specMaxObserved res allowed t + 1).toNat := by
  unfold initLayoutStatic tableLen
  simp only
  have hlen : (((processList res allowed).foldl (initStep res) emptyInit).maxBP).length = 4 :=
    foldl_initStep_maxBP_length res _ emptyInit
  by_cases ht : t < 4
  · have hidx : t < (((processList res allowed).foldl (initStep res) emptyInit).maxBP).length := by
      rw [hlen]; exact ht
    rw [List.getD_eq_getElem?_getD, List.getElem?_map, List.getElem?_eq_getElem hidx]
    have hval := initLayoutStatic_maxBP res allowed t
    rw [List.getD_eq_getElem?_getD, List.getElem?_eq_getElem hidx] at hval
    simp only [Option.getD_some] at hval
    simp [hval]
  · rw [List.getD_eq_getElem?_getD, List.getElem?_eq_none
      (by rw [List.length_map, hlen]; omega)]
    have hmax : specMaxObserved res allowed t = -1 := by
      have hub : ∀ item, itemContribs res item t = [] := by
        intro item
        obtain ⟨a, rt⟩ := item
        have hlt : descriptorRangeType rt < 4 := by cases rt <;> decide
        have hrt : ¬ (descriptorRangeType rt = t) := by omega
        unfold itemContribs
        rw [if_neg hrt, List.append_nil]
        cases rt
        case TexSRV =>
          cases hs : a.samplerId with
          | none => simp [hs]
          | some sid =>
            simp only [hs]
            have hcond : ¬ ((res.samplers.getD sid default).staticSamplerFlag = false ∧
                t = 3) := by
              rintro ⟨_, h⟩
              omega
            rw [if_neg hcond]
        all_goals rfl
      unfold specMaxObserved
      have hflat : (processList res allowed).flatMap (fun it => itemContribs res it t) = [] := by
        rw [List.flatMap_eq_nil_iff]
        intro it hit
        exact hub it
      rw [hflat]
      rfl
    rw [hmax]
    rfl

/-- C7 (amended): in static/default mode each of the four fixed tables of
the cache is sized to the maximum observed `(bind point + bind count)` over
the resources assigned to it PLUS ONE (an empty table has size 0);
consequently, in the spec's scenario the reported capacities are still at
least CBV 1, SRV 3, UAV 1 and Sampler 1. -/
theorem initLayoutStatic_tableSizes :
    (∀ (res : ShaderResources) (allowed : ShaderVariableType → Bool) (t : Nat),
      tableLen ((initLayoutStatic res allowed).2) t =
        (specMaxObserved res allowed t + 1).toNat) ∧
    1 ≤ tableLen ((initLayoutStatic scenRes allowAll).2) 2 ∧
    3 ≤ tableLen ((initLayoutStatic scenRes allowAll).2) 0 ∧
    1 ≤ tableLen ((initLayoutStatic scenRes allowAll).2) 1 ∧
    1 ≤ tableLen ((initLayoutStatic scenRes allowAll).2) 3 :=
  ⟨initLayoutStatic_tableLen_eq, by decide, by decide, by decide, by decide⟩

/-- C7 counterexample: The claim "each table is sized to the maximum
observed (bind point + bind count)" is false on the scenario input: the CBV
table (root 2) is sized to 2, while the maximum observed quantity is 1. -/
theorem initLayoutStatic_tableSizes_counterexample :
    ¬ (tableLen ((initLayoutStatic scenRes allowAll).2) 2 =
        (specMaxObserved scenRes allowAll 2).toNat) := by
  decide

theorem getRes_setRes_cases (c : ResourceCache) (t2 o2 : Nat) (d : CachedResource)
    (t o : Nat) :
    getRes (setRes c t2 o2 d) t o = getRes c t o ∨ getRes (setRes c t2 o2 d) t o = d := by
  by_cases h : t2 = t ∧ o2 = o
  · obtain ⟨rfl, rfl⟩ := h
    by_cases h2 : t2 < numRootTables c ∧ o2 < tableLen c t2
    · right
      exact getRes_setRes_same c t2 o2 d h2.1 h2.2
    · left
      rcases not_and_or.mp h2 with h3 | h3
      · rw [getRes_oob c t2 o2 (Or.inl h3),
          getRes_oob _ t2 o2 (Or.inl (by rw [numRootTables_setRes]; exact h3))]
      · rw [getRes_oob c t2 o2 (Or.inr h3),
          getRes_oob _ t2 o2 (Or.inr (by rw [tableLen_setRes]; exact h3))]
  · left
    exact getRes_setRes_ne c t2 o2 t o d (by tauto)

theorem cacheSampler_len (sam : SamplerRes) (tv : Option DeviceObject) (k : Nat)
    (c : ResourceCache) :
    numRootTables (cacheSampler sam tv k c).1 = numRootTables c ∧
    ∀ t, tableLen (cacheSampler sam tv k c).1 t = tableLen c t := by
  refine ⟨?_, fun t => ?_⟩ <;>
  · unfold cacheSampler
    cases tv with
    | none => simp [numRootTables_setRes, tableLen_setRes]
    | some o =>
      cases hvs : viewSampler o <;>
        simp [hvs, numRootTables_setRes, tableLen_setRes]

theorem bindResource_len (L : Layout) (r : SrvCbvUav) (obj : Option DeviceObject)
    (i : Nat) (c : ResourceCache) :
    numRootTables (bindResource L r obj i c).1 = numRootTables c ∧
    ∀ t, tableLen (bindResource L r obj i c).1 t = tableLen c t := by
  cases obj with
  | none =>
    cases hsid : r.samplerId with
    | none =>
      refine ⟨?_, fun t => ?_⟩ <;>
        simp [bindResource, hsid, numRootTables_setRes, tableLen_setRes]
    | some sid =>
      refine ⟨?_, fun t => ?_⟩ <;>
        simp [bindResource, hsid, cacheSampler, numRootTables_setRes, tableLen_setRes]
  | some o =>
    cases hr : r.resType
    case CBV =>
      rcases hd : cacheCB r.attribs.varType .CBV o
          (getRes c r.rootIndex (r.offsetFromTableStart + i)) with ⟨d, logs⟩
      cases d <;>
        · refine ⟨?_, fun t => ?_⟩ <;>
            simp [bindResource, hr, hd, numRootTables_setRes, tableLen_setRes]
    case TexUAV =>
      rcases hd : cacheTexView r.attribs.varType .TexUAV .UnorderedAccess o
          (getRes c r.rootIndex (r.offsetFromTableStart + i)) with ⟨d, logs⟩
      cases d <;>
        · refine ⟨?_, fun t => ?_⟩ <;>
            simp [bindResource, hr, hd, numRootTables_setRes, tableLen_setRes]
    case BufSRV =>
      rcases hd : cacheBufView r.attribs.varType .BufSRV .ShaderResource o
          (getRes c r.rootIndex (r.offsetFromTableStart + i)) with ⟨d, logs⟩
      cases d <;>
        · refine ⟨?_, fun t => ?_⟩ <;>
            simp [bindResource, hr, hd, numRootTables_setRes, tableLen_setRes]
    case BufUAV =>
      rcases hd : cacheBufView r.attribs.varType .BufUAV .UnorderedAccess o
          (getRes c r.rootIndex (r.offsetFromTableStart + i)) with ⟨d, logs⟩
      cases d <;>
        · refine ⟨?_, fun t => ?_⟩ <;>
            simp [bindResource, hr, hd, numRootTables_setRes, tableLen_setRes]
    case Sampler =>
      refine ⟨?_, fun t => ?_⟩ <;> simp [bindResource, hr]
    case Unknown =>
      refine ⟨?_, fun t => ?_⟩ <;> simp [bindResource, hr]
    case TexSRV =>
      rcases hd : cacheTexView r.attribs.varType .TexSRV .ShaderResource o
          (getRes c r.rootIndex (r.offsetFromTableStart + i)) with ⟨d, logs⟩
      cases d with
      | none =>
        refine ⟨?_, fun t => ?_⟩ <;> simp [bindResource, hr, hd]
      | some d =>
        cases hsid : r.samplerId with
        | none =>
          refine ⟨?_, fun t => ?_⟩ <;>
            simp [bindResource, hr, hd, hsid, numRootTables_setRes, tableLen_setRes]
        | some sid =>
          have hbind : (bindResource L r (some o) i c).1 =
              (cacheSampler (getSamplerOf L r.attribs.varType sid) (some o)
                (if (getSamplerOf L r.attribs.varType sid).attribs.bindCount > 1
                 then i else 0)
                (setRes c r.rootIndex (r.offsetFromTableStart + i) d)).1 := by
            simp [bindResource, hr, hd, hsid]
          rw [hbind]
          refine ⟨?_, fun t => ?_⟩
          · rw [(cacheSampler_len _ _ _ _).1, numRootTables_setRes]
          · rw [(cacheSampler_len _ _ _ _).2, tableLen_setRes]

theorem cacheCB_some_isSome (varType : ShaderVariableType) (rt : CachedResourceType)
    (o : DeviceObject) (dst d : CachedResource) (logs : List LogEvent)
    (h : cacheCB varType rt o dst = (some d, logs)) : d.pObject.isSome = true := by
  cases o with
  | buffer id uni =>
    by_cases hu : uni = true
    · subst hu
      simp only [cacheCB, if_true] at h
      rw [Prod.mk.injEq] at h
      rw [← Option.some.inj h.1]
      rfl
    · have hu2 : uni = false := by simpa using hu
      subst hu2
      simp [cacheCB] at h
  | texView id vt sid => simp [cacheCB] at h
  | bufView id vt => simp [cacheCB] at h
  | samplerObj id => simp [cacheCB] at h

theorem cacheTexView_some_isSome (varType : ShaderVariableType) (rt : CachedResourceType)
    (expected : TextureViewType) (o : DeviceObject) (dst d : CachedResource)
    (logs : List LogEvent)
    (h : cacheTexView varType rt expected o dst = (some d, logs)) :
    d.pObject.isSome = true := by
  cases o with
  | texView id vt sid =>
    by_cases hvt : vt = expected
    · subst hvt
      simp only [cacheTexView, verifyShaderBindings] at h
      rw [if_neg (by simp)] at h
      rw [Prod.mk.injEq] at h
      rw [← Option.some.inj h.1]
      rfl
    · simp [cacheTexView, verifyShaderBindings, hvt] at h
  | buffer id uni => simp [cacheTexView] at h
  | bufView id vt => simp [cacheTexView] at h
  | samplerObj id => simp [cacheTexView] at h

theorem cacheBufView_some_isSome (varType : ShaderVariableType) (rt : CachedResourceType)
    (expected : BufferViewType) (o : DeviceObject) (dst d : CachedResource)
    (logs : List LogEvent)
    (h : cacheBufView varType rt expected o dst = (some d, logs)) :
    d.pObject.isSome = true := by
  cases o with
  | bufView id vt =>
    by_cases hvt : vt = expected
    · subst hvt
      simp only [cacheBufView, verifyShaderBindings] at h
      rw [if_neg (by simp)] at h
      rw [Prod.mk.injEq] at h
      rw [← Option.some.inj h.1]
      rfl
    · simp [cacheBufView, verifyShaderBindings, hvt] at h
  | buffer id uni => simp [cacheBufView] at h
  | texView id vt sid => simp [cacheBufView] at h
  | samplerObj id => simp [cacheBufView] at h

theorem cacheSampler_some_isSome (sam : SamplerRes) (o : DeviceObject) (k : Nat)
    (c : ResourceCache) (t o2 : Nat)
    (h : (getRes c t o2).pObject.isSome = true) :
    (getRes (cacheSampler sam (some o) k c).1 t o2).pObject.isSome = true := by
  unfold cacheSampler
  cases hvs : viewSampler o with
  | none => simpa [hvs] using h
  | some ps =>
    simp only [hvs]
    rcases getRes_setRes_cases c sam.rootIndex (sam.offsetFromTableStart + k)
        { resType := .Sampler, pObject := some ps, cpuHandle := cpuHandleOf ps } t o2 with
      he | he <;> rw [he]
    · exact h
    · rfl

/-- Binding a non-null object never clears any cache slot: every position
that held a non-null object still holds one afterwards. -/
theorem bindResource_some_isSome_mono (L : Layout) (r : SrvCbvUav) (o : DeviceObject)
    (i : Nat) (c : ResourceCache) (t o2 : Nat)
    (h : (getRes c t o2).pObject.isSome = true) :
    (getRes (bindResource L r (some o) i c).1 t o2).pObject.isSome = true := by
  have hset : ∀ (d : CachedResource), d.pObject.isSome = true →
      (getRes (setRes c r.rootIndex (r.offsetFromTableStart + i) d) t o2).pObject.isSome
        = true := by
    intro d hd
    rcases getRes_setRes_cases c r.rootIndex (r.offsetFromTableStart + i) d t o2 with
      he | he <;> rw [he]
    · exact h
    · exact hd
  cases hr : r.resType
  case Sampler => simpa [bindResource, hr] using h
  case Unknown => simpa [bindResource, hr] using h
  case CBV =>
    rcases hd : cacheCB r.attribs.varType .CBV o
        (getRes c r.rootIndex (r.offsetFromTableStart + i)) with ⟨d, logs⟩
    cases d with
    | none => simpa [bindResource, hr, hd] using h
    | some d =>
      have := hset d (cacheCB_some_isSome _ _ _ _ _ _ hd)
      simpa [bindResource, hr, hd] using this
  case TexUAV =>
    rcases hd : cacheTexView r.attribs.varType .TexUAV .UnorderedAccess o
        (getRes c r.rootIndex (r.offsetFromTableStart + i)) with ⟨d, logs⟩
    cases d with
    | none => simpa [bindResource, hr, hd] using h
    | some d =>
      have := hset d (cacheTexView_some_isSome _ _ _ _ _ _ _ hd)
      simpa [bindResource, hr, hd] using this
  case BufSRV =>
    rcases hd : cacheBufView r.attribs.varType .BufSRV .ShaderResource o
        (getRes c r.rootIndex (r.offsetFromTableStart + i)) with ⟨d, logs⟩
    cases d with
    | none => simpa [bindResource, hr, hd] using h
    | some d =>
      have := hset d (cacheBufView_some_isSome _ _ _ _ _ _ _ hd)
      simpa [bindResource, hr, hd] using this
  case BufUAV =>
    rcases hd : cacheBufView r.attribs.varType .BufUAV .UnorderedAccess o
        (getRes c r.rootIndex (r.offsetFromTableStart + i)) with ⟨d, logs⟩
    cases d with
    | none => simpa [bindResource, hr, hd] using h
    | some d =>
      have := hset d (cacheBufView_some_isSome _ _ _ _ _ _ _ hd)
      simpa [bindResource, hr, hd] using this
  case TexSRV =>
    rcases hd : cacheTexView r.attribs.varType .TexSRV .ShaderResource o
        (getRes c r.rootIndex (r.offsetFromTableStart + i)) with ⟨d, logs⟩
    cases d with
    | none => simpa [bindResource, hr, hd] using h
    | some d =>
      have h1 := hset d (cacheTexView_some_isSome _ _ _ _ _ _ _ hd)
      cases hsid : r.samplerId with
      | none => simpa [bindResource, hr, hd, hsid] using h1
      | some sid =>
        have h2 := cacheSampler_some_isSome (getSamplerOf L r.attribs.varType sid) o
          (if (getSamplerOf L r.attribs.varType sid).attribs.bindCount > 1 then i else 0)
          (setRes c r.rootIndex (r.offsetFromTableStart + i) d) t o2 h1
        simpa [bindResource, hr, hd, hsid] using h2

/-- A successful, well-typed bind records a non-null object at the
binding's resolved cache position (when that position is in range). -/
theorem bindResource_some_typed_isSome (L : Layout) (r : SrvCbvUav) (o : DeviceObject)
    (i : Nat) (c : ResourceCache)
    (hty : typeMatches r.resType o = true)
    (hr1 : r.rootIndex < numRootTables c)
    (hr2 : r.offsetFromTableStart + i < tableLen c r.rootIndex) :
    (getRes (bindResource L r (some o) i c).1 r.rootIndex
      (r.offsetFromTableStart + i)).pObject.isSome = true := by
  cases hr : r.resType
  case Sampler => rw [hr] at hty; simp [typeMatches] at hty
  case Unknown => rw [hr] at hty; simp [typeMatches] at hty
  case CBV =>
    rw [hr] at hty
    cases o with
    | buffer id uni =>
      have huni : uni = true := by
        cases uni
        · simp [typeMatches] at hty
        · rfl
      subst huni
      have hcb : cacheCB r.attribs.varType .CBV (DeviceObject.buffer id true)
          (getRes c r.rootIndex (r.offsetFromTableStart + i)) =
          (some { resType := .CBV, pObject := some (DeviceObject.buffer id true),
                  cpuHandle := cpuHandleOf (DeviceObject.buffer id true) },
           if r.attribs.varType ≠ ShaderVariableType.Dynamic ∧
              (getRes c r.rootIndex (r.offsetFromTableStart + i)).pObject ≠ none ∧
              (getRes c r.rootIndex (r.offsetFromTableStart + i)).pObject ≠
                some (DeviceObject.buffer id true)
           then [.alreadyBoundError] else []) := by
        simp [cacheCB]
      simp only [bindResource, hr, hcb]
      rw [getRes_setRes_same c _ _ _ hr1 hr2]
      rfl
    | texView id vt sid => simp [typeMatches] at hty
    | bufView id vt => simp [typeMatches] at hty
    | samplerObj id => simp [typeMatches] at hty
  case TexUAV =>
    rw [hr] at hty
    cases o with
    | texView id vt sid =>
      have hvt : vt = TextureViewType.UnorderedAccess := by
        cases vt <;> simp_all [typeMatches]
      subst hvt
      have hcv : ∃ logs, cacheTexView r.attribs.varType .TexUAV .UnorderedAccess
          (DeviceObject.texView id .UnorderedAccess sid)
          (getRes c r.rootIndex (r.offsetFromTableStart + i)) =
          (some { resType := .TexUAV,
                  pObject := some (DeviceObject.texView id .UnorderedAccess sid),
                  cpuHandle := cpuHandleOf (DeviceObject.texView id .UnorderedAccess sid) },
           logs) := ⟨_, rfl⟩
      obtain ⟨logs, hcv⟩ := hcv
      simp only [bindResource, hr, hcv]
      rw [getRes_setRes_same c _ _ _ hr1 hr2]
      rfl
    | buffer id uni => simp [typeMatches] at hty
    | bufView id vt => simp [typeMatches] at hty
    | samplerObj id => simp [typeMatches] at hty
  case BufSRV =>
    rw [hr] at hty
    cases o with
    | bufView id vt =>
      have hvt : vt = BufferViewType.ShaderResource := by
        cases vt <;> simp_all [typeMatches]
      subst hvt
      have hcv : ∃ logs, cacheBufView r.attribs.varType .BufSRV .ShaderResource
          (DeviceObject.bufView id .ShaderResource)
          (getRes c r.rootIndex (r.offsetFromTableStart + i)) =
          (some { resType := .BufSRV,
                  pObject := some (DeviceObject.bufView id .ShaderResource),
                  cpuHandle := cpuHandleOf (DeviceObject.bufView id .ShaderResource) },
           logs) := ⟨_, rfl⟩
      obtain ⟨logs, hcv⟩ := hcv
      simp only [bindResource, hr, hcv]
      rw [getRes_setRes_same c _ _ _ hr1 hr2]
      rfl
    | buffer id uni => simp [typeMatches] at hty
    | texView id vt sid => simp [typeMatches] at hty
    | samplerObj id => simp [typeMatches] at hty
  case BufUAV =>
    rw [hr] at hty
    cases o with
    | bufView id vt =>
      have hvt : vt = BufferViewType.UnorderedAccess := by
        cases vt <;> simp_all [typeMatches]
      subst hvt
      have hcv : ∃ logs, cacheBufView r.attribs.varType .BufUAV .UnorderedAccess
          (DeviceObject.bufView id .UnorderedAccess)
          (getRes c r.rootIndex (r.offsetFromTableStart + i)) =
          (some { resType := .BufUAV,
                  pObject := some (DeviceObject.bufView id .UnorderedAccess),
                  cpuHandle := cpuHandleOf (DeviceObject.bufView id .UnorderedAccess) },
           logs) := ⟨_, rfl⟩
      obtain ⟨logs, hcv⟩ := hcv
      simp only [bindResource, hr, hcv]
      rw [getRes_setRes_same c _ _ _ hr1 hr2]
      rfl
    | buffer id uni => simp [typeMatches] at hty
    | texView id vt sid => simp [typeMatches] at hty
    | samplerObj id => simp [typeMatches] at hty
  case TexSRV =>
    rw [hr] at hty
    cases o with
    | texView id vt sid =>
      have hvt : vt = TextureViewType.ShaderResource := by
        cases vt <;> simp_all [typeMatches]
      subst hvt
      have hcv : ∃ logs, cacheTexView r.attribs.varType .TexSRV .ShaderResource
          (DeviceObject.texView id .ShaderResource sid)
          (getRes c r.rootIndex (r.offsetFromTableStart + i)) =
          (some { resType := .TexSRV,
                  pObject := some (DeviceObject.texView id .ShaderResource sid),
                  cpuHandle := cpuHandleOf (DeviceObject.texView id .ShaderResource sid) },
           logs) := ⟨_, rfl⟩
      obtain ⟨logs, hcv⟩ := hcv
      have hmid : (getRes (setRes c r.rootIndex (r.offsetFromTableStart + i)
          { resType := .TexSRV,
            pObject := some (DeviceObject.texView id .ShaderResource sid),
            cpuHandle := cpuHandleOf (DeviceObject.texView id .ShaderResource sid) })
          r.rootIndex (r.offsetFromTableStart + i)).pObject.isSome = true := by
        rw [getRes_setRes_same c _ _ _ hr1 hr2]
        rfl
      cases hsid : r.samplerId with
      | none => simpa [bindResource, hr, hcv, hsid] using hmid
      | some sid2 =>
        have h2 := cacheSampler_some_isSome (getSamplerOf L r.attribs.varType sid2)
          (DeviceObject.texView id .ShaderResource sid)
          (if (getSamplerOf L r.attribs.varType sid2).attribs.bindCount > 1 then i else 0)
          (setRes c r.rootIndex (r.offsetFromTableStart + i)
            { resType := .TexSRV,
              pObject := some (DeviceObject.texView id .ShaderResource sid),
              cpuHandle := cpuHandleOf (DeviceObject.texView id .ShaderResource sid) })
          r.rootIndex (r.offsetFromTableStart + i) hmid
        simpa [bindResource, hr, hcv, hsid] using h2
    | buffer id uni => simp [typeMatches] at hty
    | bufView id vt => simp [typeMatches] at hty
    | samplerObj id => simp [typeMatches] at hty

theorem bindSlots_len (L : Layout) (m : ResourceMapping) (flags : BindFlags)
    (slots : List (SrvCbvUav × Nat)) (c : ResourceCache) :
    numRootTables (bindSlots L m flags slots c).1 = numRootTables c ∧
    ∀ t, tableLen (bindSlots L m flags slots c).1 t = tableLen c t := by
  induction slots generalizing c with
  | nil => exact ⟨rfl, fun t => rfl⟩
  | cons s rest ih =>
    obtain ⟨r, i⟩ := s
    simp only [bindSlots]
    have hl1 : numRootTables (if flags.reset then (bindResource L r none i c).1 else c) =
        numRootTables c ∧
        ∀ t, tableLen (if flags.reset then (bindResource L r none i c).1 else c) t =
          tableLen c t := by
      by_cases hrs : flags.reset = true
      · rw [if_pos hrs]
        exact (bindResource_len L r none i c)
      · rw [if_neg hrs]
        exact ⟨rfl, fun t => rfl⟩
    by_cases hb : (flags.updateUnresolved &&
        isBoundRes (if flags.reset then (bindResource L r none i c).1 else c) r i) = true
    · rw [if_pos hb]
      exact hl1
    · rw [if_neg hb]
      cases hmm : m r.attribs.name i with
      | some obj =>
        simp only [hmm]
        obtain ⟨iha, ihb⟩ :=
          ih ((bindResource L r (some obj) i
            (if flags.reset then (bindResource L r none i c).1 else c)).1)
        have h2 := bindResource_len L r (some obj) i
          (if flags.reset then (bindResource L r none i c).1 else c)
        exact ⟨by rw [iha, h2.1, hl1.1],
          fun t => by rw [ihb, h2.2, hl1.2]⟩
      | none =>
        simp only [hmm]
        obtain ⟨iha, ihb⟩ :=
          ih (if flags.reset then (bindResource L r none i c).1 else c)
        exact ⟨by rw [iha, hl1.1], fun t => by rw [ihb, hl1.2]⟩

theorem bindSlots_isSome_mono (L : Layout) (m : ResourceMapping) (uu a : Bool)
    (slots : List (SrvCbvUav × Nat)) (c : ResourceCache) (t o2 : Nat)
    (h : (getRes c t o2).pObject.isSome = true) :
    (getRes (bindSlots L m ⟨false, uu, a⟩ slots c).1 t o2).pObject.isSome = true := by
  induction slots generalizing c with
  | nil => exact h
  | cons s rest ih =>
    obtain ⟨r, i⟩ := s
    simp only [bindSlots, Bool.false_eq_true, if_false]
    by_cases hb : (uu && isBoundRes c r i) = true
    · rw [if_pos hb]
      exact h
    · rw [if_neg hb]
      cases hmm : m r.attribs.name i with
      | some obj =>
        simp only [hmm]
        exact ih _ (bindResource_some_isSome_mono L r obj i c t o2 h)
      | none =>
        simp only [hmm]
        exact ih c h

theorem bindSlots_all_bound (L : Layout) (m : ResourceMapping) (a : Bool)
    (slots : List (SrvCbvUav × Nat)) (c : ResourceCache)
    (hm : ∀ s ∈ slots, ∃ obj, m s.1.attribs.name s.2 = some obj ∧
      typeMatches s.1.resType obj = true)
    (hrange : ∀ s ∈ slots, s.1.rootIndex < numRootTables c ∧
      s.1.offsetFromTableStart + s.2 < tableLen c s.1.rootIndex) :
    ∀ s ∈ slots, isBoundRes (bindSlots L m ⟨false, false, a⟩ slots c).1 s.1 s.2 = true := by
  induction slots generalizing c with
  | nil => intro s hs; cases hs
  | cons s0 rest ih =>
    obtain ⟨r, i⟩ := s0
    obtain ⟨obj, hobj, hty⟩ := hm (r, i) (List.mem_cons_self _ _)
    have hstep : bindSlots L m ⟨false, false, a⟩ ((r, i) :: rest) c =
        bindSlots L m ⟨false, false, a⟩ rest ((bindResource L r (some obj) i c).1) := by
      simp [bindSlots, hobj]
    have hlen2 := bindResource_len L r (some obj) i c
    intro s hs
    rcases List.mem_cons.mp hs with heq | hsrest
    · subst heq
      rw [hstep]
      have h1 : (getRes ((bindResource L r (some obj) i c).1) r.rootIndex
          (r.offsetFromTableStart + i)).pObject.isSome = true :=
        bindResource_some_typed_isSome L r obj i c hty
          (hrange (r, i) (List.mem_cons_self _ _)).1
          (hrange (r, i) (List.mem_cons_self _ _)).2
      have h2 := bindSlots_isSome_mono L m false a rest
        ((bindResource L r (some obj) i c).1) r.rootIndex (r.offsetFromTableStart + i) h1
      have hlenf := bindSlots_len L m ⟨false, false, a⟩ rest
        ((bindResource L r (some obj) i c).1)
      rw [isBoundRes_iff]
      refine ⟨?_, ?_, h2⟩
      · rw [hlenf.1, hlen2.1]
        exact (hrange (r, i) (List.mem_cons_self _ _)).1
      · rw [hlenf.2, hlen2.2]
        exact (hrange (r, i) (List.mem_cons_self _ _)).2
    · rw [hstep]
      refine ih ((bindResource L r (some obj) i c).1) ?_ ?_ s hsrest
      · intro s' hs'
        exact hm s' (List.mem_cons_of_mem _ hs')
      · intro s' hs'
        obtain ⟨ha, hb⟩ := hrange s' (List.mem_cons_of_mem _ hs')
        exact ⟨by rw [hlen2.1]; exact ha, by rw [hlen2.2]; exact hb⟩

theorem bumpMax_getD_ge (m : List Int) (root : Nat) (v : Int) (t : Nat) :
    m.getD t (-1) ≤ (bumpMax m root v).getD t (-1) := by
  by_cases h : root = t
  · subst h
    by_cases hlt : root < m.length
    · rw [bumpMax_getD_fold m root v root hlt, if_pos rfl]
      exact le_max_left _ _
    · unfold bumpMax
      rw [List.set_eq_of_length_le (Nat.le_of_not_lt hlt)]
  · unfold bumpMax
    by_cases hlt : root < m.length
    · rw [show m.set root (max (m.getD root (-1)) v) = bumpMax m root v from rfl,
        bumpMax_getD_fold m root v t hlt, if_neg h]
    · rw [List.set_eq_of_length_le (Nat.le_of_not_lt hlt)]

theorem mem_allRes_appendRes (L : Layout) (vt : ShaderVariableType) (r r' : SrvCbvUav) :
    r' ∈ allRes (appendRes L vt r) ↔ r' ∈ allRes L ∨ r' = r := by
  cases vt <;> simp [appendRes, allRes] <;> tauto

theorem allRes_appendSam (L : Layout) (vt : ShaderVariableType) (s : SamplerRes) :
    allRes (appendSam L vt s) = allRes L := by
  cases vt <;> rfl

theorem descriptorRangeType_lt (rt : CachedResourceType) : descriptorRangeType rt < 4 := by
  cases rt <;> decide

theorem addResource_inv (st : InitState) (a : D3DShaderResourceAttribs)
    (rt : CachedResourceType) (sampId : Option Nat)
    (hst : InitResInv st)
    (hcat : rt ≠ CachedResourceType.Sampler ∧ rt ≠ CachedResourceType.Unknown) :
    InitResInv (addResource st a rt sampId) := by
  obtain ⟨hlen, hmem⟩ := hst
  refine ⟨by simpa [addResource, bumpMax_length] using hlen, ?_⟩
  intro r hr
  rcases (mem_allRes_appendRes _ _ _ _).mp hr with hold | rfl
  · obtain ⟨h1, h2, h3, h4, h5⟩ := hmem r hold
    exact ⟨h1, h2, h3, h4, le_trans h5 (bumpMax_getD_ge _ _ _ _)⟩
  · refine ⟨rfl, rfl, hcat.1, hcat.2, ?_⟩
    show Int.ofNat (a.bindPoint + a.bindCount) ≤
      (bumpMax st.maxBP (descriptorRangeType rt)
        (Int.ofNat (a.bindPoint + a.bindCount))).getD (descriptorRangeType rt) (-1)
    rw [bumpMax_getD_fold st.maxBP _ _ _ (by rw [hlen]; exact descriptorRangeType_lt rt),
      if_pos rfl]
    exact le_max_right _ _

theorem initStep_inv (res : ShaderResources) (st : InitState)
    (item : D3DShaderResourceAttribs × CachedResourceType)
    (hst : InitResInv st)
    (hcat : item.2 ≠ CachedResourceType.Sampler ∧ item.2 ≠ CachedResourceType.Unknown) :
    InitResInv (initStep res st item) := by
  obtain ⟨a, rt⟩ := item
  cases rt
  case CBV => exact addResource_inv st a _ none hst hcat
  case BufSRV => exact addResource_inv st a _ none hst hcat
  case TexUAV => exact addResource_inv st a _ none hst hcat
  case BufUAV => exact addResource_inv st a _ none hst hcat
  case Sampler => exact absurd rfl hcat.1
  case Unknown => exact absurd rfl hcat.2
  case TexSRV =>
    cases hs : a.samplerId with
    | none =>
      have hred : initStep res st (a, CachedResourceType.TexSRV) =
          addResource st a .TexSRV none := by
        simp only [initStep, hs]
      rw [hred]
      exact addResource_inv st a _ none hst hcat
    | some sid =>
      by_cases hflag : (res.samplers.getD sid default).staticSamplerFlag = true
      · have hred : initStep res st (a, CachedResourceType.TexSRV) =
            addResource st a .TexSRV none := by
          simp only [initStep, hs]
          rw [if_pos hflag]
        rw [hred]
        exact addResource_inv st a _ none hst hcat
      · have hflag2 : (res.samplers.getD sid default).staticSamplerFlag = false := by
          simpa using hflag
        have hred : initStep res st (a, CachedResourceType.TexSRV) =
            addResource
              ⟨appendSam st.L a.varType
                 { attribs := res.samplers.getD sid default, rootIndex := 3,
                   offsetFromTableStart := (res.samplers.getD sid default).bindPoint },
               bumpMax st.maxBP 3
                 (Int.ofNat ((res.samplers.getD sid default).bindPoint +
                   (res.samplers.getD sid default).bindCount))⟩
              a .TexSRV (some (st.L.samOf a.varType).length) := by
          simp only [initStep, hs]
          rw [if_neg hflag]
        rw [hred]
        refine addResource_inv _ a _ _ ⟨?_, ?_⟩ hcat
        · simpa [bumpMax_length] using hst.1
        · intro r hr
          rw [allRes_appendSam] at hr
          obtain ⟨h1, h2, h3, h4, h5⟩ := hst.2 r hr
          exact ⟨h1, h2, h3, h4, le_trans h5 (bumpMax_getD_ge _ _ _ _)⟩

theorem foldl_initStep_inv (res : ShaderResources)
    (items : List (D3DShaderResourceAttribs × CachedResourceType)) (st : InitState)
    (hst : InitResInv st)
    (hcats : ∀ it ∈ items, it.2 ≠ CachedResourceType.Sampler ∧
      it.2 ≠ CachedResourceType.Unknown) :
    InitResInv (items.foldl (initStep res) st) := by
  induction items generalizing st with
  | nil => exact hst
  | cons x rest ih =>
    rw [List.foldl_cons]
    exact ih (initStep res st x)
      (initStep_inv res st x hst (hcats x (List.mem_cons_self _ _)))
      (fun it hit => hcats it (List.mem_cons_of_mem _ hit))

theorem processList_cats (res : ShaderResources) (allowed : ShaderVariableType → Bool) :
    ∀ it ∈ processList res allowed, it.2 ≠ CachedResourceType.Sampler ∧
      it.2 ≠ CachedResourceType.Unknown := by
  have hmap : ∀ (l : List D3DShaderResourceAttribs) (rt : CachedResourceType)
      (it : D3DShaderResourceAttribs × CachedResourceType),
      it ∈ l.map (fun a => (a, rt)) → it.2 = rt := by
    intro l rt it h
    obtain ⟨a, -, heq⟩ := List.mem_map.mp h
    rw [← heq]
  intro it hit
  unfold processList at hit
  simp only [List.mem_append] at hit
  rcases hit with (((h | h) | h) | h) | h <;>
    · have := hmap _ _ _ h
      rw [this]
      exact ⟨by simp, by simp⟩

theorem mem_slotsOf (L : Layout) (r : SrvCbvUav) (i : Nat) :
    (r, i) ∈ slotsOf L ↔ r ∈ allRes L ∧ i < r.attribs.bindCount := by
  unfold slotsOf
  simp only [List.mem_flatMap, List.mem_map, List.mem_range]
  constructor
  · rintro ⟨r', hr', i', hi', heq⟩
    obtain ⟨rfl, rfl⟩ := Prod.mk.injEq .. ▸ heq
    exact ⟨hr', hi'⟩
  · rintro ⟨hr, hi⟩
    exact ⟨r, hr, i, hi, rfl⟩

/-- In static/default mode the completed layout-and-cache pair satisfies:
every resolved binding's root index is its category's fixed table (< 4 =
the cache's table count), its offset is its bind point, its category is
bindable, and its whole `bind point + bind count` range lies strictly
inside its cache table. -/
theorem initLayoutStatic_wf (res : ShaderResources) (allowed : ShaderVariableType → Bool) :
    ∀ r ∈ allRes (initLayoutStatic res allowed).1,
      r.rootIndex = descriptorRangeType r.resType ∧
      r.offsetFromTableStart = r.attribs.bindPoint ∧
      r.resType ≠ CachedResourceType.Sampler ∧
      r.resType ≠ CachedResourceType.Unknown ∧
      r.rootIndex < numRootTables (initLayoutStatic res allowed).2 ∧
      r.attribs.bindPoint + r.attribs.bindCount <
        tableLen (initLayoutStatic res allowed).2 r.rootIndex := by
  have hinv := foldl_initStep_inv res (processList res allowed) emptyInit
    ⟨rfl, fun r hr => absurd hr (by simp [allRes, emptyInit])⟩
    (processList_cats res allowed)
  intro r hr
  obtain ⟨h1, h2, h3, h4, h5⟩ := hinv.2 r hr
  have hnum : numRootTables (initLayoutStatic res allowed).2 = 4 := by
    show (((processList res allowed).foldl (initStep res) emptyInit).maxBP.map _).length = 4
    rw [List.length_map]
    exact hinv.1
  have hroot4 : r.rootIndex < 4 := by
    rw [h1]; exact descriptorRangeType_lt r.resType
  have htl : tableLen (initLayoutStatic res allowed).2 r.rootIndex =
      (specMaxObserved res allowed r.rootIndex + 1).toNat :=
    initLayoutStatic_tableLen_eq res allowed r.rootIndex
  have hspec : (((processList res allowed).foldl (initStep res) emptyInit).maxBP).getD
      r.rootIndex (-1) = specMaxObserved res allowed r.rootIndex :=
    initLayoutStatic_maxBP res allowed r.rootIndex
  rw [← hspec] at htl
  refine ⟨h1, h2, h3, h4, by rw [hnum]; exact hroot4, ?_⟩
  have h5c : ((r.attribs.bindPoint + r.attribs.bindCount : Nat) : Int) ≤
      (((processList res allowed).foldl (initStep res) emptyInit).maxBP).getD
        r.rootIndex (-1) := h5
  rw [htl]
  omega

/-- C1: After `Initialize` in static/default mode and then `BindAll`
(`BindResources` with neither the reset nor the update-unresolved flag)
with a resource mapping supplying a correctly-typed object for every
declared resource name and array element, `IsBound(binding, i)` is true for
every resolved binding of the layout and every array index
`i <` the binding's bind count. -/
theorem initThenBindAll_isBound (res : ShaderResources)
    (allowed : ShaderVariableType → Bool) (m : ResourceMapping) (a : Bool)
    (hm : ∀ r ∈ allRes (initLayoutStatic res allowed).1, ∀ i, i < r.attribs.bindCount →
      ∃ obj, m r.attribs.name i = some obj ∧ typeMatches r.resType obj = true) :
    ∀ r ∈ allRes (initLayoutStatic res allowed).1, ∀ i, i < r.attribs.bindCount →
      isBoundRes (bindResources (initLayoutStatic res allowed).1 (some m)
        ⟨false, false, a⟩ (initLayoutStatic res allowed).2).1 r i = true := by
  intro r hr i hi
  have hwf := initLayoutStatic_wf res allowed
  exact bindSlots_all_bound (initLayoutStatic res allowed).1 m a
    (slotsOf (initLayoutStatic res allowed).1) (initLayoutStatic res allowed).2
    (fun s hs => by
      obtain ⟨hmem, hlt⟩ := (mem_slotsOf _ s.1 s.2).mp (by
        have : (s.1, s.2) = s := rfl
        rw [this]; exact hs)
      exact hm s.1 hmem s.2 hlt)
    (fun s hs => by
      obtain ⟨hmem, hlt⟩ := (mem_slotsOf _ s.1 s.2).mp (by
        have : (s.1, s.2) = s := rfl
        rw [this]; exact hs)
      obtain ⟨h1, h2, h3, h4, h5, h6⟩ := hwf s.1 hmem
      exact ⟨h5, by rw [h2]; omega⟩)
    (r, i) ((mem_slotsOf _ r i).mpr ⟨hr, hi⟩)

theorem initThenBindAll_isBound_witness :
    isBoundRes (bindResources (initLayoutStatic scenRes allowAll).1 (some scenMapping)
      ⟨false, false, false⟩ (initLayoutStatic scenRes allowAll).2).1
      ((initLayoutStatic scenRes allowAll).1.resMut.getD 0 default) 2 = true :=
  initThenBindAll_isBound scenRes allowAll scenMapping false
    (by
      intro r hr i hi
      fin_cases hr
      · exact ⟨.buffer 1 true, rfl, rfl⟩
      · exact ⟨.texView (10 + i) .ShaderResource (some 20), rfl, rfl⟩
      · exact ⟨.bufView 2 .UnorderedAccess, rfl, rfl⟩)
    ((initLayoutStatic scenRes allowAll).1.resMut.getD 0 default)
    (by decide) 2 (by decide)

theorem copySlot_fatal_id (srcCache : ResourceCache) (sp dp : Nat × Nat) (st : CopyState)
    (h : st.fatal = true) : copySlot srcCache sp dp st = st := by
  simp [copySlot, h]

theorem copyFold_fatal_id (srcCache : ResourceCache)
    (ps : List ((Nat × Nat) × (Nat × Nat))) (st : CopyState)
    (h : st.fatal = true) : copyFold srcCache ps st = st := by
  induction ps with
  | nil => rfl
  | cons q rest ih =>
    show copyFold srcCache rest (copySlot srcCache q.1 q.2 st) = st
    rw [copySlot_fatal_id srcCache q.1 q.2 st h]
    exact ih

theorem copyFold_append (srcCache : ResourceCache)
    (xs ys : List ((Nat × Nat) × (Nat × Nat))) (st : CopyState) :
    copyFold srcCache (xs ++ ys) st = copyFold srcCache ys (copyFold srcCache xs st) :=
  List.foldl_append ..

theorem copySlot_cases (srcCache : ResourceCache) (sp dp : Nat × Nat) (st : CopyState)
    (hst : st.fatal = false) :
    (copySlot srcCache sp dp st).cache = st.cache ∨
    ((getRes st.cache dp.1 dp.2).pObject = none ∧
     (copySlot srcCache sp dp st).cache =
       setRes st.cache dp.1 dp.2 (getRes srcCache sp.1 sp.2)) := by
  unfold copySlot
  rw [if_neg (by rw [hst]; exact Bool.false_ne_true)]
  by_cases hsrc : (getRes srcCache sp.1 sp.2).pObject = none <;>
    by_cases hne : (getRes st.cache dp.1 dp.2).pObject ≠ (getRes srcCache sp.1 sp.2).pObject <;>
    by_cases hnn : (getRes st.cache dp.1 dp.2).pObject ≠ none <;>
    first
      | (left; simp [hsrc, hne, hnn]; done)
      | (right; exact ⟨by simpa using hnn, by simp [hsrc, hne, hnn]⟩)

theorem copySlot_fatal_out (srcCache : ResourceCache) (sp dp : Nat × Nat) (st : CopyState)
    (hst : st.fatal = false)
    (hnf : (copySlot srcCache sp dp st).fatal = false) :
    ¬ ((getRes st.cache dp.1 dp.2).pObject ≠ (getRes srcCache sp.1 sp.2).pObject ∧
       (getRes st.cache dp.1 dp.2).pObject ≠ none) := by
  rintro ⟨hne, hnn⟩
  unfold copySlot at hnf
  rw [if_neg (by rw [hst]; exact Bool.false_ne_true)] at hnf
  by_cases hsrc : (getRes srcCache sp.1 sp.2).pObject = none <;>
    simp [hsrc, hne, hnn] at hnf

theorem copySlot_preserves_nonnull (srcCache : ResourceCache) (sp dp : Nat × Nat)
    (st : CopyState) (hst : st.fatal = false)
    (hnf : (copySlot srcCache sp dp st).fatal = false)
    (p : Nat × Nat) (hp : (getRes st.cache p.1 p.2).pObject ≠ none) :
    getRes (copySlot srcCache sp dp st).cache p.1 p.2 = getRes st.cache p.1 p.2 := by
  rcases copySlot_cases srcCache sp dp st hst with h | ⟨hdst, h⟩
  · rw [h]
  · rw [h]
    have hpd : p ≠ dp := by
      intro heq
      rw [heq] at hp
      exact hp hdst
    rw [getRes_setRes_ne _ _ _ _ _ _ (by
      rcases Prod.ext_iff.not.mp hpd with h2
      by_cases h1 : dp.1 = p.1
      · right
        intro h2o
        exact hpd (Prod.ext h1.symm h2o.symm)
      · left
        exact h1)]

theorem copySlot_fatal_mono (srcCache : ResourceCache) (sp dp : Nat × Nat)
    (st : CopyState) (h : (copySlot srcCache sp dp st).fatal = false) :
    st.fatal = false := by
  by_cases hst : st.fatal = true
  · rw [copySlot_fatal_id srcCache sp dp st hst] at h
    rw [hst] at h
    exact absurd h (by decide)
  · simpa using hst

theorem copyFold_fatal_mono (srcCache : ResourceCache)
    (ps : List ((Nat × Nat) × (Nat × Nat))) (st : CopyState)
    (h : (copyFold srcCache ps st).fatal = false) : st.fatal = false := by
  induction ps generalizing st with
  | nil => exact h
  | cons q rest ih =>
    have h2 : (copyFold srcCache rest (copySlot srcCache q.1 q.2 st)).fatal = false := h
    exact copySlot_fatal_mono srcCache q.1 q.2 st (ih _ h2)

theorem copyFold_preserves_nonnull (srcCache : ResourceCache)
    (ps : List ((Nat × Nat) × (Nat × Nat))) (st : CopyState)
    (hnf : (copyFold srcCache ps st).fatal = false)
    (p : Nat × Nat) (hp : (getRes st.cache p.1 p.2).pObject ≠ none) :
    getRes (copyFold srcCache ps st).cache p.1 p.2 = getRes st.cache p.1 p.2 := by
  induction ps generalizing st with
  | nil => rfl
  | cons q rest ih =>
    have hnf2 : (copyFold srcCache rest (copySlot srcCache q.1 q.2 st)).fatal = false := hnf
    have hst : st.fatal = false :=
      copySlot_fatal_mono srcCache q.1 q.2 st (copyFold_fatal_mono srcCache rest _ hnf2)
    have hstep : (copySlot srcCache q.1 q.2 st).fatal = false :=
      copyFold_fatal_mono srcCache rest _ hnf2
    have hpres := copySlot_preserves_nonnull srcCache q.1 q.2 st hst hstep p hp
    have := ih (copySlot srcCache q.1 q.2 st) hnf2 (by rw [hpres]; exact hp)
    rw [show copyFold srcCache (q :: rest) st =
      copyFold srcCache rest (copySlot srcCache q.1 q.2 st) from rfl, this, hpres]

/-- C4: If any Static-class slot's destination already holds a non-null
object different from the source slot's object, the whole copy operation
ends in the fatal (aborted) state: execution never continues past a
static-resource destination/source mismatch. -/
theorem copySlot_mismatch_fatal (srcCache : ResourceCache) (sp dp : Nat × Nat)
    (st : CopyState) (hst : st.fatal = false)
    (hnn : (getRes st.cache dp.1 dp.2).pObject ≠ none)
    (hne : (getRes st.cache dp.1 dp.2).pObject ≠ (getRes srcCache sp.1 sp.2).pObject) :
    (copySlot srcCache sp dp st).fatal = true := by
  unfold copySlot
  rw [if_neg (by rw [hst]; exact Bool.false_ne_true)]
  by_cases hsrc : (getRes srcCache sp.1 sp.2).pObject = none <;>
    simp [hsrc, hne, hnn]

theorem copyStatic_mismatch_fatal (L : Layout) (srcCache dstCache : ResourceCache)
    (sp dp : Nat × Nat) (hmem : (sp, dp) ∈ staticSlots L)
    (hnn : (getRes dstCache dp.1 dp.2).pObject ≠ none)
    (hne : (getRes dstCache dp.1 dp.2).pObject ≠ (getRes srcCache sp.1 sp.2).pObject) :
    (copyStaticAll L srcCache dstCache).fatal = true := by
  obtain ⟨pre, post, hsplit⟩ := List.append_of_mem hmem
  unfold copyStaticAll
  rw [hsplit, copyFold_append]
  rw [show copyFold srcCache ((sp, dp) :: post)
      (copyFold srcCache pre { cache := dstCache, copies := 0, fatal := false, logs := [] }) =
    copyFold srcCache post (copySlot srcCache sp dp
      (copyFold srcCache pre { cache := dstCache, copies := 0, fatal := false, logs := [] }))
    from rfl]
  by_cases hfat : (copyFold srcCache pre
      { cache := dstCache, copies := 0, fatal := false, logs := [] }).fatal = true
  · rw [copySlot_fatal_id _ _ _ _ hfat, copyFold_fatal_id _ _ _ hfat]
    exact hfat
  · have hfat2 : (copyFold srcCache pre
        { cache := dstCache, copies := 0, fatal := false, logs := [] }).fatal = false := by
      simpa using hfat
    have hval : getRes (copyFold srcCache pre
        { cache := dstCache, copies := 0, fatal := false, logs := [] }).cache dp.1 dp.2 =
        getRes dstCache dp.1 dp.2 :=
      copyFold_preserves_nonnull srcCache pre _ hfat2 dp hnn
    have hstep : (copySlot srcCache sp dp (copyFold srcCache pre
        { cache := dstCache, copies := 0, fatal := false, logs := [] })).fatal = true :=
      copySlot_mismatch_fatal srcCache sp dp _ hfat2
        (by rw [hval]; exact hnn) (by rw [hval]; exact hne)
    rw [copyFold_fatal_id _ _ _ hstep]
    exact hstep

theorem copySlot_len (srcCache : ResourceCache) (sp dp : Nat × Nat) (st : CopyState) :
    numRootTables (copySlot srcCache sp dp st).cache = numRootTables st.cache ∧
    ∀ t, tableLen (copySlot srcCache sp dp st).cache t = tableLen st.cache t := by
  by_cases hst : st.fatal = true
  · rw [copySlot_fatal_id _ _ _ _ hst]
    exact ⟨rfl, fun t => rfl⟩
  · rcases copySlot_cases srcCache sp dp st (by simpa using hst) with h | ⟨-, h⟩
    · rw [h]
      exact ⟨rfl, fun t => rfl⟩
    · rw [h]
      exact ⟨numRootTables_setRes _ _ _ _, fun t => tableLen_setRes _ _ _ _ _⟩

theorem copySlot_write (srcCache : ResourceCache) (sp dp : Nat × Nat) (st : CopyState)
    (hst : st.fatal = false)
    (hne : (getRes st.cache dp.1 dp.2).pObject ≠ (getRes srcCache sp.1 sp.2).pObject)
    (hdn : (getRes st.cache dp.1 dp.2).pObject = none) :
    (copySlot srcCache sp dp st).cache =
      setRes st.cache dp.1 dp.2 (getRes srcCache sp.1 sp.2) := by
  unfold copySlot
  rw [if_neg (by rw [hst]; exact Bool.false_ne_true)]
  by_cases hsrc : (getRes srcCache sp.1 sp.2).pObject = none
  · exact absurd (hdn.trans hsrc.symm) hne
  · simp only [if_neg hsrc]
    rw [if_pos hne, if_neg (not_not_intro hdn)]

theorem copySlot_skip (srcCache : ResourceCache) (sp dp : Nat × Nat) (st : CopyState)
    (hst : st.fatal = false)
    (heq : (getRes st.cache dp.1 dp.2).pObject = (getRes srcCache sp.1 sp.2).pObject) :
    (copySlot srcCache sp dp st).cache = st.cache := by
  unfold copySlot
  rw [if_neg (by rw [hst]; exact Bool.false_ne_true)]
  by_cases hsrc : (getRes srcCache sp.1 sp.2).pObject = none <;>
    simp [hsrc, heq]

theorem copySlot_noop (srcCache : ResourceCache) (sp dp : Nat × Nat) (st : CopyState)
    (hst : st.fatal = false)
    (heq : (getRes st.cache dp.1 dp.2).pObject = (getRes srcCache sp.1 sp.2).pObject)
    (hsrc : (getRes srcCache sp.1 sp.2).pObject ≠ none) :
    copySlot srcCache sp dp st = st := by
  unfold copySlot
  rw [if_neg (by rw [hst]; exact Bool.false_ne_true)]
  simp [hsrc, heq]

theorem copySlot_establishes (srcCache : ResourceCache) (sp dp : Nat × Nat)
    (st : CopyState) (hst : st.fatal = false)
    (hnf : (copySlot srcCache sp dp st).fatal = false)
    (hr1 : dp.1 < numRootTables st.cache) (hr2 : dp.2 < tableLen st.cache dp.1) :
    (getRes (copySlot srcCache sp dp st).cache dp.1 dp.2).pObject =
      (getRes srcCache sp.1 sp.2).pObject := by
  by_cases heq : (getRes st.cache dp.1 dp.2).pObject = (getRes srcCache sp.1 sp.2).pObject
  · rw [copySlot_skip srcCache sp dp st hst heq]
    exact heq
  · have hdn : (getRes st.cache dp.1 dp.2).pObject = none := by
      by_contra hnn
      exact (copySlot_fatal_out srcCache sp dp st hst hnf) ⟨heq, hnn⟩
    rw [copySlot_write srcCache sp dp st hst heq hdn,
      getRes_setRes_same _ _ _ _ hr1 hr2]

theorem copyFold_establishes (srcCache : ResourceCache)
    (ps : List ((Nat × Nat) × (Nat × Nat))) (st : CopyState)
    (hstf : st.fatal = false)
    (hnf : (copyFold srcCache ps st).fatal = false)
    (hsrc : ∀ p ∈ ps, (getRes srcCache p.1.1 p.1.2).pObject ≠ none)
    (hrange : ∀ p ∈ ps, p.2.1 < numRootTables st.cache ∧
      p.2.2 < tableLen st.cache p.2.1) :
    ∀ p ∈ ps, (getRes (copyFold srcCache ps st).cache p.2.1 p.2.2).pObject =
      (getRes srcCache p.1.1 p.1.2).pObject := by
  induction ps generalizing st with
  | nil => intro p hp; cases hp
  | cons q rest ih =>
    have hnf2 : (copyFold srcCache rest (copySlot srcCache q.1 q.2 st)).fatal = false := hnf
    have hstep : (copySlot srcCache q.1 q.2 st).fatal = false :=
      copyFold_fatal_mono srcCache rest _ hnf2
    have hlen := copySlot_len srcCache q.1 q.2 st
    intro p hp
    rcases List.mem_cons.mp hp with heqp | hprest
    · subst heqp
      have hq := copySlot_establishes srcCache p.1 p.2 st hstf hstep
        (hrange p (List.mem_cons_self _ _)).1 (hrange p (List.mem_cons_self _ _)).2
      have hpres := copyFold_preserves_nonnull srcCache rest
        (copySlot srcCache p.1 p.2 st) hnf2 p.2
        (by rw [hq]; exact hsrc p (List.mem_cons_self _ _))
      rw [show copyFold srcCache (p :: rest) st =
        copyFold srcCache rest (copySlot srcCache p.1 p.2 st) from rfl, hpres, hq]
    · rw [show copyFold srcCache (q :: rest) st =
        copyFold srcCache rest (copySlot srcCache q.1 q.2 st) from rfl]
      exact ih (copySlot srcCache q.1 q.2 st) hstep hnf2
        (fun p2 hp2 => hsrc p2 (List.mem_cons_of_mem _ hp2))
        (fun p2 hp2 => ⟨by rw [hlen.1]; exact (hrange p2 (List.mem_cons_of_mem _ hp2)).1,
          by rw [hlen.2]; exact (hrange p2 (List.mem_cons_of_mem _ hp2)).2⟩)
        p hprest

theorem copyFold_noop (srcCache : ResourceCache)
    (ps : List ((Nat × Nat) × (Nat × Nat))) (st : CopyState)
    (hstf : st.fatal = false)
    (heq : ∀ p ∈ ps, (getRes st.cache p.2.1 p.2.2).pObject =
      (getRes srcCache p.1.1 p.1.2).pObject)
    (hsrc : ∀ p ∈ ps, (getRes srcCache p.1.1 p.1.2).pObject ≠ none) :
    copyFold srcCache ps st = st := by
  induction ps generalizing st with
  | nil => rfl
  | cons q rest ih =>
    have h1 : copySlot srcCache q.1 q.2 st = st :=
      copySlot_noop srcCache q.1 q.2 st hstf
        (heq q (List.mem_cons_self _ _)) (hsrc q (List.mem_cons_self _ _))
    show copyFold srcCache rest (copySlot srcCache q.1 q.2 st) = st
    rw [h1]
    exact ih st hstf (fun p hp => heq p (List.mem_cons_of_mem _ hp))
      (fun p hp => hsrc p (List.mem_cons_of_mem _ hp))

/-- C8: Running `CopyStaticResourceDesriptorHandles` a second time with
the same source and destination is idempotent: provided the first run
completed without the fatal consistency check firing and every source slot
holds a resource, the second run performs no copies, raises no error or
fatal conflict, and leaves the destination cache exactly as the first run
left it. -/
theorem copyStatic_idempotent (L : Layout) (srcCache dstCache : ResourceCache)
    (h1 : (copyStaticAll L srcCache dstCache).fatal = false)
    (h2 : ∀ p ∈ staticSlots L, (getRes srcCache p.1.1 p.1.2).pObject ≠ none)
    (h3 : ∀ p ∈ staticSlots L, p.2.1 < numRootTables dstCache ∧
      p.2.2 < tableLen dstCache p.2.1) :
    copyStaticAll L srcCache (copyStaticAll L srcCache dstCache).cache =
      { cache := (copyStaticAll L srcCache dstCache).cache, copies := 0,
        fatal := false, logs := [] } := by
  have hest := copyFold_establishes srcCache (staticSlots L)
    { cache := dstCache, copies := 0, fatal := false, logs := [] } rfl h1 h2 h3
  exact copyFold_noop srcCache (staticSlots L)
    { cache := (copyStaticAll L srcCache dstCache).cache, copies := 0,
      fatal := false, logs := [] } rfl (fun p hp => hest p hp) h2

theorem copyStatic_mismatch_fatal_witness :
    (copyStaticAll demoStaticLayout demoSrcCache demoDstCacheConflict).fatal = true :=
  copyStatic_mismatch_fatal demoStaticLayout demoSrcCache demoDstCacheConflict
    (2, 0) (2, 0) (by decide) (by decide) (by decide)

theorem copyStatic_idempotent_witness :
    copyStaticAll demoStaticLayout demoSrcCache
        (copyStaticAll demoStaticLayout demoSrcCache demoDstCacheEmpty).cache =
      { cache := (copyStaticAll demoStaticLayout demoSrcCache demoDstCacheEmpty).cache,
        copies := 0, fatal := false, logs := [] } :=
  copyStatic_idempotent demoStaticLayout demoSrcCache demoDstCacheEmpty
    (by decide) (by decide) (by decide)

end Diligent
